import Mathlib

/-!
# Day Out Planner — core model

A shallow embedding of `src/main.py` (FastAPI + MongoDB "Day Out Planner").
MongoDB collections are modelled as lists of documents in insertion order:
`find_one` is first match, `update_one` updates the first match, `delete_one`
erases the first match, `insert_one` appends.  The unique indexes declared on
`users.user_id` and `lobbies.lobby_id` are modelled by a pre-insert duplicate
check that fails the operation (pymongo raises `DuplicateKeyError`).  Python
dicts (`user_likes`) are association lists in key-insertion order; `$push` on a
dotted key appends to an existing entry or creates the key at the end.
Timestamps (`datetime.now()`) are drawn from a logical clock in the state.
Generated identifiers (`str(ObjectId())`, the truncated timestamp hash for
lobby ids) are supplied by the caller as oracle inputs.
-/

namespace DayOut

/-- One element of a lobby's `users` array: `{user_id, name, joined_at}`. -/
structure Member where
  user_id : String
  name : String
  joined_at : Nat
deriving DecidableEq

/-- A document of the `users` collection. -/
structure UserRec where
  user_id : String
  name : String
  current_lobby_id : Option String
  is_host : Bool
  created_at : Nat
deriving DecidableEq

/-- A document of the `lobbies` (open lobby) collection. -/
structure Lobby where
  lobby_id : String
  host_id : String
  users : List Member
  created_at : Nat
  status : String
deriving DecidableEq

/-- A document of the `active_lobbies` collection: `{**lobby, status: "active",
started_at, user_likes}`. -/
structure ActiveLobby where
  lobby_id : String
  host_id : String
  users : List Member
  created_at : Nat
  status : String
  started_at : Nat
  user_likes : List (String × List Int)
deriving DecidableEq

/-- The three MongoDB collections plus the logical clock. -/
structure AppState where
  users : List UserRec
  lobbies : List Lobby
  active_lobbies : List ActiveLobby
  clock : Nat
deriving DecidableEq

/-- The error outcomes of the endpoints.  `notFound` = HTTP 404,
`alreadyInLobby` = 400 "User already in a lobby", `lobbyNotOpen` = 400
"Lobby is not open", `forbidden` = 403, `invalidInput` = a pydantic validation
failure (422), `duplicateKey` = an uncaught `DuplicateKeyError` from a unique
index (500), `internal` = an uncaught Python exception in the handler (500). -/
inductive Err where
  | notFound
  | alreadyInLobby
  | lobbyNotOpen
  | forbidden
  | invalidInput
  | duplicateKey
  | internal
deriving DecidableEq

/-- Python truthiness of `user.get("current_lobby_id")`: `None` and the empty
string are falsy, any other string is truthy. -/
def truthy : Option String → Bool
  | none => false
  | some s => s != ""

/-- Replace the first element satisfying `p` by its image under `f`
(MongoDB `update_one`). -/
def updateFirst (p : α → Bool) (f : α → α) : List α → List α
  | [] => []
  | x :: xs => if p x then f x :: xs else x :: updateFirst p f xs

/-- The filter `{"user_id": uid}`. -/
def userKey (uid : String) : UserRec → Bool := fun u => u.user_id == uid

/-- The filter `{"lobby_id": lid}` on the open-lobby collection. -/
def lobbyKey (lid : String) : Lobby → Bool := fun l => l.lobby_id == lid

/-- The filter `{"lobby_id": lid}` on the active-lobby collection. -/
def activeKey (lid : String) : ActiveLobby → Bool := fun a => a.lobby_id == lid

/-- `find_one` on the `users` collection. -/
def findUser (s : AppState) (uid : String) : Option UserRec :=
  s.users.find? (userKey uid)

/-- `find_one` on the `lobbies` collection. -/
def findLobby (s : AppState) (lid : String) : Option Lobby :=
  s.lobbies.find? (lobbyKey lid)

/-- `find_one` on the `active_lobbies` collection. -/
def findActive (s : AppState) (lid : String) : Option ActiveLobby :=
  s.active_lobbies.find? (activeKey lid)

/-- The `$set` document of `create_lobby`:
`{"current_lobby_id": lobby_id, "is_host": True}`. -/
def setCurrentHost (lid : String) : UserRec → UserRec :=
  fun v => { v with current_lobby_id := some lid, is_host := true }

/-- The `$set` document of `join_lobby`: `{"current_lobby_id": lobby_id}`. -/
def setCurrent (lid : String) : UserRec → UserRec :=
  fun v => { v with current_lobby_id := some lid }

/-- The `$push` document of `join_lobby`: append one member to `users`. -/
def pushMember (uid nm : String) (now : Nat) : Lobby → Lobby :=
  fun x => { x with users := x.users ++ [⟨uid, nm, now⟩] }

/-- The ids of the open-lobby documents. -/
def openIds (s : AppState) : List String := s.lobbies.map (fun l => l.lobby_id)

/-- The ids of the active-session documents. -/
def activeIds (s : AppState) : List String :=
  s.active_lobbies.map (fun a => a.lobby_id)

/-- The ids of the user documents. -/
def userIds (s : AppState) : List String := s.users.map (fun u => u.user_id)

/-- `POST /users/create`.  `uid` models the generated `str(ObjectId())`.
Pydantic validates `2 <= len(name) <= 50`; the unique index on `user_id`
rejects a duplicate id. -/
def create_user (s : AppState) (uid name : String) :
    Except Err UserRec × AppState :=
  if name.length < 2 || 50 < name.length then (Except.error Err.invalidInput, s)
  else if (findUser s uid).isSome then (Except.error Err.duplicateKey, s)
  else
    let u : UserRec := ⟨uid, name, none, false, s.clock⟩
    (Except.ok u, { s with users := s.users ++ [u], clock := s.clock + 1 })

/-- `POST /lobbies/create`.  `lid` models the generated
`str(abs(hash(str(datetime.now()))))[:6]`.  The handler looks the user up,
rejects a missing user (404) and a truthy `current_lobby_id` (400), inserts the
one-member lobby (unique index on `lobby_id`), then sets the user's
`current_lobby_id` and `is_host`. -/
def create_lobby (s : AppState) (lid uid : String) :
    Except Err String × AppState :=
  match findUser s uid with
  | none => (Except.error Err.notFound, s)
  | some u =>
    if truthy u.current_lobby_id then (Except.error Err.alreadyInLobby, s)
    else if (findLobby s lid).isSome then (Except.error Err.duplicateKey, s)
    else
      let lb : Lobby := ⟨lid, uid, [⟨uid, u.name, s.clock⟩], s.clock, "open"⟩
      let s1 := { s with lobbies := s.lobbies ++ [lb] }
      (Except.ok lid,
        { s1 with
          users := updateFirst (userKey uid) (setCurrentHost lid) s1.users,
          clock := s.clock + 1 })

/-- `POST /lobbies/{lobby_id}/join`.  Fetches user and lobby, rejects when
either is missing (404 "User or lobby not found"), then a truthy
`current_lobby_id` (400 "User already in a lobby"), then `status != "open"`
(400 "Lobby is not open"); pushes the member onto the lobby's `users` and sets
the user's `current_lobby_id`. -/
def join_lobby (s : AppState) (lid uid : String) :
    Except Err Unit × AppState :=
  match findUser s uid, findLobby s lid with
  | none, _ => (Except.error Err.notFound, s)
  | some _, none => (Except.error Err.notFound, s)
  | some u, some l =>
    if truthy u.current_lobby_id then (Except.error Err.alreadyInLobby, s)
    else if l.status != "open" then (Except.error Err.lobbyNotOpen, s)
    else
      let s1 := { s with
        lobbies := updateFirst (lobbyKey lid)
          (pushMember uid u.name s.clock) s.lobbies }
      (Except.ok (),
        { s1 with
          users := updateFirst (userKey uid) (setCurrent lid) s1.users,
          clock := s.clock + 1 })

/-- The dict comprehension `{user["user_id"]: [] for user in lobby["users"]}`:
a later duplicate key overwrites the value and keeps the key's first
position. -/
def dictInsert (m : List (String × List Int)) (k : String) (v : List Int) :
    List (String × List Int) :=
  if m.any (fun p => p.1 == k) then
    m.map (fun p => if p.1 == k then (p.1, v) else p)
  else m ++ [(k, v)]

/-- Build the initial `user_likes` mapping from the member snapshot. -/
def initLikes (ms : List Member) : List (String × List Int) :=
  ms.foldl (fun m mem => dictInsert m mem.user_id []) []

/-- The active-lobby document built by `start_lobby`:
`{**lobby, "status": "active", "started_at": now, "user_likes": ...}`. -/
def mkActive (l : Lobby) (now : Nat) : ActiveLobby :=
  ⟨l.lobby_id, l.host_id, l.users, l.created_at, "active", now,
    initLikes l.users⟩

/-- The first half of `POST /lobbies/{lobby_id}/start`: the lookups, the 404
and 403 checks, and the `insert_one` into `active_lobbies`.  In the source this
ends at line 165; the `delete_one` on line 166 is a separate database call. -/
def start_lobby_insert (s : AppState) (lid uid : String) :
    Except Err Unit × AppState :=
  match findUser s uid, findLobby s lid with
  | none, _ => (Except.error Err.notFound, s)
  | some _, none => (Except.error Err.notFound, s)
  | some _, some l =>
    if l.host_id != uid then (Except.error Err.forbidden, s)
    else
      (Except.ok (),
        { s with
          active_lobbies := s.active_lobbies ++ [mkActive l s.clock],
          clock := s.clock + 1 })

/-- The second half of `start_lobby`: `delete_one({"lobby_id": lobby_id})` on
the open-lobby collection. -/
def start_lobby_delete (s : AppState) (lid : String) : AppState :=
  { s with lobbies := s.lobbies.eraseP (lobbyKey lid) }

/-- `POST /lobbies/{lobby_id}/start`, run to completion: the insert phase
followed by the delete phase. -/
def start_lobby (s : AppState) (lid uid : String) :
    Except Err Unit × AppState :=
  match start_lobby_insert s lid uid with
  | (Except.error e, s1) => (Except.error e, s1)
  | (Except.ok _, s1) => (Except.ok (), start_lobby_delete s1 lid)

/-- MongoDB `$push` on `user_likes.{user_id}`: append to the entry when the
key exists, otherwise create the key at the end with a one-element array. -/
def pushLike (m : List (String × List Int)) (uid : String) (pid : Int) :
    List (String × List Int) :=
  if m.any (fun p => p.1 == uid) then
    m.map (fun p => if p.1 == uid then (p.1, p.2 ++ [pid]) else p)
  else m ++ [(uid, [pid])]

/-- The `$push` document of `add_like`: `{"user_likes.{user_id}": place_id}`
applied to one active-lobby document. -/
def pushDocLike (uid : String) (pid : Int) : ActiveLobby → ActiveLobby :=
  fun x => { x with user_likes := pushLike x.user_likes uid pid }

/-- Lines 191–194 of the source: `common = set(all_likes[first_key])` followed
by `common &= set(v)` for every value `v` (the first included again).  On an
empty dict, `list(all_likes.keys())[0]` raises `IndexError`; that is the
`none` case.  The result is a list whose membership is the intersection of all
the like sequences viewed as sets. -/
def computeMatches (m : List (String × List Int)) : Option (List Int) :=
  match m with
  | [] => none
  | (_, v) :: _ =>
    some (v.dedup.filter (fun p => m.all (fun q => q.2.contains p)))

/-- `POST /lobbies/{lobby_id}/like`.  Pydantic validates `place_id > 0`; the
handler fetches the active lobby (404 when absent), performs the `$push`, and
only then computes the match set — from the document it fetched BEFORE the
push.  When that stale dict is empty the intersection code raises after the
push has already been applied (`internal`, state mutated). -/
def add_like (s : AppState) (lid uid : String) (pid : Int) :
    Except Err (List Int) × AppState :=
  if pid ≤ 0 then (Except.error Err.invalidInput, s)
  else
    match findActive s lid with
    | none => (Except.error Err.notFound, s)
    | some act =>
      let s1 := { s with
        active_lobbies := updateFirst (activeKey lid) (pushDocLike uid pid)
          s.active_lobbies,
        clock := s.clock + 1 }
      match computeMatches act.user_likes with
      | none => (Except.error Err.internal, s1)
      | some ms => (Except.ok ms, s1)

/-- One row of the `GET /lobbies/open` response.  `host_name` is `none` when
`next(...)` would raise (host absent from `users`). -/
structure OpenLobbySummary where
  lobby_id : String
  host_name : Option String
  user_count : Nat
  created_at : Nat
deriving DecidableEq

/-- `GET /lobbies/open`: the open-status lobbies sorted by `created_at`
descending, summarised. -/
def get_open_lobbies (s : AppState) : List OpenLobbySummary :=
  ((s.lobbies.filter (fun l => l.status == "open")).mergeSort
      (fun a b => b.created_at ≤ a.created_at)).map
    (fun l =>
      ⟨l.lobby_id,
        (l.users.find? (fun u => u.user_id == l.host_id)).map
          (fun u => u.name),
        l.users.length, l.created_at⟩)

/-- The record returned by `GET /lobbies/{lobby_id}`. -/
inductive LobbyDetails where
  | openL (l : Lobby)
  | activeL (a : ActiveLobby)
deriving DecidableEq

/-- `GET /lobbies/{lobby_id}`: the open store first, then the active store,
else 404. -/
def get_lobby_details (s : AppState) (lid : String) :
    Except Err LobbyDetails :=
  match findLobby s lid with
  | some l => Except.ok (LobbyDetails.openL l)
  | none =>
    match findActive s lid with
    | some a => Except.ok (LobbyDetails.activeL a)
    | none => Except.error Err.notFound

/-- One API call, with its oracle-generated identifiers inlined. -/
inductive Op where
  | createUser (uid name : String)
  | createLobby (lid uid : String)
  | joinLobby (lid uid : String)
  | startLobby (lid uid : String)
  | addLike (lid uid : String) (pid : Int)
deriving DecidableEq

/-- The state transition of one completed API call. -/
def step (s : AppState) : Op → AppState
  | Op.createUser uid name => (create_user s uid name).2
  | Op.createLobby lid uid => (create_lobby s lid uid).2
  | Op.joinLobby lid uid => (join_lobby s lid uid).2
  | Op.startLobby lid uid => (start_lobby s lid uid).2
  | Op.addLike lid uid pid => (add_like s lid uid pid).2

/-- The empty store at process start. -/
def initState : AppState := ⟨[], [], [], 0⟩

/-- Run a sequence of API calls from the empty store. -/
def exec (ops : List Op) : AppState := ops.foldl step initState

/-- The oracle discipline the real id generator is meant to satisfy on a
`createLobby` call: the generated id is a nonempty digit string and does not
collide with any lobby id still live in either store.  (The unique index
already rules out a collision inside the open store; nothing rules out a
collision with an active session.) -/
def opOk (s : AppState) : Op → Bool
  | Op.createLobby lid _ => lid != "" && !((activeIds s).contains lid)
  | _ => true

/-- Every generated lobby id along the trace satisfies `opOk` at its state. -/
def okTrace : AppState → List Op → Bool
  | _, [] => true
  | s, op :: ops => opOk s op && okTrace (step s op) ops

/-- The key list of a `user_likes` mapping. -/
def likeKeys (m : List (String × List Int)) : List String :=
  m.map (fun p => p.1)

/-- Python `all_likes[user_id]`: the like sequence recorded for a user, when
the key is present. -/
def lookupLikes (m : List (String × List Int)) (uid : String) :
    Option (List Int) :=
  (m.find? (fun p => p.1 == uid)).map (fun p => p.2)

/-- Whether a user id occurs in an open lobby's member array. -/
def inDocL (uid : String) (l : Lobby) : Bool :=
  l.users.any (fun m => m.user_id == uid)

/-- Whether a user id occurs in an active session's member snapshot. -/
def inDocA (uid : String) (a : ActiveLobby) : Bool :=
  a.users.any (fun m => m.user_id == uid)

/-- How many lobby-or-session documents list this user as a member. -/
def memberDocs (s : AppState) (uid : String) : Nat :=
  s.lobbies.countP (inDocL uid) + s.active_lobbies.countP (inDocA uid)

/-- Python truthiness of the stored `current_lobby_id` of a user id (false
when the user does not exist). -/
def truthyCurrent (s : AppState) (uid : String) : Bool :=
  match findUser s uid with
  | none => false
  | some u => truthy u.current_lobby_id

instance {ε α : Type} [DecidableEq ε] [DecidableEq α] :
    DecidableEq (Except ε α) := fun x y =>
  match x, y with
  | Except.error e, Except.error f =>
    if h : e = f then Decidable.isTrue (by rw [h])
    else Decidable.isFalse (fun hh => h (by cases hh; rfl))
  | Except.error _, Except.ok _ =>
    Decidable.isFalse (fun hh => Except.noConfusion hh)
  | Except.ok _, Except.error _ =>
    Decidable.isFalse (fun hh => Except.noConfusion hh)
  | Except.ok a, Except.ok b =>
    if h : a = b then Decidable.isTrue (by rw [h])
    else Decidable.isFalse (fun hh => h (by cases hh; rfl))

/-! ## Generic list lemmas for the MongoDB primitives -/

theorem updateFirst_forall {p : α → Bool} {f : α → α} {P : α → Prop} :
    ∀ {l : List α}, (∀ x ∈ l, P x) → (∀ x ∈ l, P (f x)) →
      ∀ x ∈ updateFirst p f l, P x
  | [], _, _, x, hx => by simp [updateFirst] at hx
  | a :: as, hl, hf, x, hx => by
    simp only [updateFirst] at hx
    by_cases hpa : p a
    · rw [if_pos hpa] at hx
      rcases List.mem_cons.mp hx with h | h
      · subst h; exact hf a (List.mem_cons_self a as)
      · exact hl x (List.mem_cons.mpr (Or.inr h))
    · rw [if_neg hpa] at hx
      rcases List.mem_cons.mp hx with h | h
      · subst h; exact hl x (List.mem_cons_self x as)
      · exact updateFirst_forall
          (fun y hy => hl y (List.mem_cons.mpr (Or.inr hy)))
          (fun y hy => hf y (List.mem_cons.mpr (Or.inr hy))) x h

theorem map_updateFirst_eq {p : α → Bool} {f : α → α} {g : α → β}
    (hg : ∀ x, g (f x) = g x) (l : List α) :
    (updateFirst p f l).map g = l.map g := by
  induction l with
  | nil => rfl
  | cons a as ih =>
    simp only [updateFirst]
    by_cases hpa : p a
    · rw [if_pos hpa]; simp [hg]
    · rw [if_neg hpa]; simp [ih]

theorem find?_updateFirst_self {p : α → Bool} {f : α → α}
    (hf : ∀ x, p (f x) = p x) (l : List α) :
    (updateFirst p f l).find? p = (l.find? p).map f := by
  induction l with
  | nil => rfl
  | cons a as ih =>
    simp only [updateFirst]
    by_cases hpa : p a
    · rw [if_pos hpa, List.find?_cons_of_pos _ ((hf a).trans hpa),
        List.find?_cons_of_pos _ hpa, Option.map_some']
    · rw [if_neg hpa, List.find?_cons_of_neg _ hpa,
        List.find?_cons_of_neg _ hpa, ih]

theorem find?_updateFirst_disj {p q : α → Bool} {f : α → α}
    (hpq : ∀ x, p x = true → q x = false)
    (hq : ∀ x, q (f x) = q x) (l : List α) :
    (updateFirst p f l).find? q = l.find? q := by
  induction l with
  | nil => rfl
  | cons a as ih =>
    simp only [updateFirst]
    by_cases hpa : p a
    · have hqa : q a = false := hpq a hpa
      have hqfa : ¬q (f a) = true := by rw [hq a, hqa]; simp
      rw [if_pos hpa, List.find?_cons_of_neg _ hqfa,
        List.find?_cons_of_neg _ (by rw [hqa]; simp)]
    · rw [if_neg hpa]
      by_cases hqa : q a
      · rw [List.find?_cons_of_pos _ hqa, List.find?_cons_of_pos _ hqa]
      · rw [List.find?_cons_of_neg _ hqa, List.find?_cons_of_neg _ hqa, ih]

theorem countP_updateFirst_le (p q : α → Bool) (f : α → α) (l : List α) :
    (updateFirst p f l).countP q ≤ l.countP q + 1 := by
  induction l with
  | nil => simp [updateFirst]
  | cons a as ih =>
    simp only [updateFirst]
    by_cases hpa : p a
    · rw [if_pos hpa, List.countP_cons, List.countP_cons]
      by_cases hq1 : q (f a) <;> by_cases hq2 : q a <;>
        simp [hq1, hq2] <;> omega
    · rw [if_neg hpa, List.countP_cons, List.countP_cons]
      by_cases hq2 : q a <;> simp [hq2] <;> omega

theorem countP_updateFirst_eq (p q : α → Bool) (f : α → α)
    (hq : ∀ x, q (f x) = q x) (l : List α) :
    (updateFirst p f l).countP q = l.countP q := by
  induction l with
  | nil => rfl
  | cons a as ih =>
    simp only [updateFirst]
    by_cases hpa : p a
    · rw [if_pos hpa, List.countP_cons, List.countP_cons, hq]
    · rw [if_neg hpa, List.countP_cons, List.countP_cons, ih]

theorem countP_eraseP_of_find? {p q : α → Bool} {l : List α} {a : α}
    (h : l.find? p = some a) :
    (l.eraseP p).countP q + (if q a then 1 else 0) = l.countP q := by
  induction l with
  | nil => simp at h
  | cons x xs ih =>
    by_cases hpx : p x
    · rw [List.find?_cons_of_pos _ hpx] at h
      injection h with h; subst h
      rw [List.eraseP_cons_of_pos hpx, List.countP_cons]
    · rw [List.find?_cons_of_neg _ hpx] at h
      rw [List.eraseP_cons_of_neg hpx, List.countP_cons, List.countP_cons,
        ← ih h]
      omega

theorem mem_map_eraseP_of_ne {f : α → String} {b : String} {l : List α}
    {j : String} (hj : j ∈ l.map f) (hne : j ≠ b) :
    j ∈ (l.eraseP (fun x => f x == b)).map f := by
  induction l with
  | nil => simp at hj
  | cons x xs ih =>
    by_cases hpx : (f x == b) = true
    · rw [List.eraseP_cons_of_pos (p := fun y => f y == b) hpx]
      simp only [List.map_cons, List.mem_cons] at hj
      rcases hj with hj | hj
      · exact absurd (hj.trans (by simpa using hpx)) hne
      · exact hj
    · rw [List.eraseP_cons_of_neg (p := fun y => f y == b) hpx]
      simp only [List.map_cons, List.mem_cons] at hj ⊢
      rcases hj with hj | hj
      · exact Or.inl hj
      · exact Or.inr (ih hj)

theorem not_mem_map_eraseP {f : α → String} {b : String} {l : List α}
    (hnd : (l.map f).Nodup)
    (hsome : (l.find? (fun x => f x == b)).isSome) :
    b ∉ (l.eraseP (fun x => f x == b)).map f := by
  induction l with
  | nil => simp at hsome
  | cons x xs ih =>
    rw [List.map_cons, List.nodup_cons] at hnd
    by_cases hpx : (f x == b) = true
    · rw [List.eraseP_cons_of_pos (p := fun y => f y == b) hpx]
      have hfx : f x = b := by simpa using hpx
      intro hb
      exact hnd.1 (by rw [hfx]; exact hb)
    · rw [List.eraseP_cons_of_neg (p := fun y => f y == b) hpx]
      rw [List.find?_cons_of_neg (p := fun y => f y == b) _ hpx] at hsome
      intro hb
      simp only [List.map_cons, List.mem_cons] at hb
      rcases hb with hb | hb
      · exact hpx (by simp [hb])
      · exact ih hnd.2 hsome hb

theorem findUser_eq_none {s : AppState} {uid : String} :
    findUser s uid = none ↔ uid ∉ userIds s := by
  constructor
  · intro h hm
    rcases List.mem_map.mp hm with ⟨u, hu, he⟩
    exact (List.find?_eq_none.mp h u hu) (by simp [userKey, he])
  · intro h
    apply List.find?_eq_none.mpr
    intro u hu hb
    exact h (List.mem_map.mpr ⟨u, hu, by simpa [userKey] using hb⟩)

theorem findLobby_eq_none {s : AppState} {lid : String} :
    findLobby s lid = none ↔ lid ∉ openIds s := by
  constructor
  · intro h hm
    rcases List.mem_map.mp hm with ⟨u, hu, he⟩
    exact (List.find?_eq_none.mp h u hu) (by simp [lobbyKey, he])
  · intro h
    apply List.find?_eq_none.mpr
    intro u hu hb
    exact h (List.mem_map.mpr ⟨u, hu, by simpa [lobbyKey] using hb⟩)

theorem findActive_eq_none {s : AppState} {lid : String} :
    findActive s lid = none ↔ lid ∉ activeIds s := by
  constructor
  · intro h hm
    rcases List.mem_map.mp hm with ⟨u, hu, he⟩
    exact (List.find?_eq_none.mp h u hu) (by simp [activeKey, he])
  · intro h
    apply List.find?_eq_none.mpr
    intro u hu hb
    exact h (List.mem_map.mpr ⟨u, hu, by simpa [activeKey] using hb⟩)

theorem findLobby_props {s : AppState} {lid : String} {l : Lobby}
    (h : findLobby s lid = some l) : l ∈ s.lobbies ∧ l.lobby_id = lid :=
  ⟨List.mem_of_find?_eq_some h, by simpa [lobbyKey] using List.find?_some h⟩

theorem findUser_props {s : AppState} {uid : String} {u : UserRec}
    (h : findUser s uid = some u) : u ∈ s.users ∧ u.user_id = uid :=
  ⟨List.mem_of_find?_eq_some h, by simpa [userKey] using List.find?_some h⟩

theorem findActive_props {s : AppState} {lid : String} {a : ActiveLobby}
    (h : findActive s lid = some a) :
    a ∈ s.active_lobbies ∧ a.lobby_id = lid :=
  ⟨List.mem_of_find?_eq_some h, by simpa [activeKey] using List.find?_some h⟩

/-! ## Lemmas about the `user_likes` dict operations -/

theorem likeKeys_dictInsert (m : List (String × List Int)) (k : String)
    (v : List Int) (j : String) :
    j ∈ likeKeys (dictInsert m k v) ↔ j ∈ likeKeys m ∨ j = k := by
  unfold dictInsert
  by_cases hk : m.any (fun p => p.1 == k)
  · rw [if_pos hk]
    have hmem : k ∈ likeKeys m := by
      rcases List.any_eq_true.mp hk with ⟨p, hp, hb⟩
      exact List.mem_map.mpr ⟨p, hp, by simpa using hb⟩
    have hkeys : likeKeys (m.map fun p => if p.1 == k then (p.1, v) else p)
        = likeKeys m := by
      unfold likeKeys
      rw [List.map_map]
      apply List.map_congr_left
      intro p _
      simp only [Function.comp_apply]
      split <;> rfl
    rw [hkeys]
    constructor
    · exact Or.inl
    · rintro (hj | hj)
      · exact hj
      · exact hj ▸ hmem
  · rw [if_neg hk]
    unfold likeKeys
    simp

theorem likeKeys_pushLike (m : List (String × List Int)) (uid : String)
    (pid : Int) (j : String) :
    j ∈ likeKeys (pushLike m uid pid) ↔ j ∈ likeKeys m ∨ j = uid := by
  unfold pushLike
  by_cases hk : m.any (fun p => p.1 == uid)
  · rw [if_pos hk]
    have hmem : uid ∈ likeKeys m := by
      rcases List.any_eq_true.mp hk with ⟨p, hp, hb⟩
      exact List.mem_map.mpr ⟨p, hp, by simpa using hb⟩
    have hkeys : likeKeys (m.map fun p =>
        if p.1 == uid then (p.1, p.2 ++ [pid]) else p) = likeKeys m := by
      unfold likeKeys
      rw [List.map_map]
      apply List.map_congr_left
      intro p _
      simp only [Function.comp_apply]
      split <;> rfl
    rw [hkeys]
    constructor
    · exact Or.inl
    · rintro (hj | hj)
      · exact hj
      · exact hj ▸ hmem
  · rw [if_neg hk]
    unfold likeKeys
    simp

theorem pushLike_ne_nil (m : List (String × List Int)) (uid : String)
    (pid : Int) : pushLike m uid pid ≠ [] := by
  unfold pushLike
  by_cases hk : m.any (fun p => p.1 == uid)
  · rw [if_pos hk]
    intro h
    rw [List.map_eq_nil_iff] at h
    subst h
    simp at hk
  · rw [if_neg hk]
    simp

theorem foldl_dictInsert_keys (ms : List Member)
    (acc : List (String × List Int)) (j : String) :
    j ∈ likeKeys (ms.foldl (fun m mem => dictInsert m mem.user_id []) acc) ↔
      j ∈ likeKeys acc ∨ j ∈ ms.map (fun mem => mem.user_id) := by
  induction ms generalizing acc with
  | nil => simp
  | cons a as ih =>
    rw [List.foldl_cons, ih, likeKeys_dictInsert]
    simp only [List.map_cons, List.mem_cons]
    tauto

theorem likeKeys_initLikes (ms : List Member) (j : String) :
    j ∈ likeKeys (initLikes ms) ↔ j ∈ ms.map (fun mem => mem.user_id) := by
  unfold initLikes
  rw [foldl_dictInsert_keys]
  simp [likeKeys]

theorem foldl_dictInsert_vals (ms : List Member)
    (acc : List (String × List Int)) (hacc : ∀ kv ∈ acc, kv.2 = []) :
    ∀ kv ∈ ms.foldl (fun m mem => dictInsert m mem.user_id []) acc,
      kv.2 = ([] : List Int) := by
  induction ms generalizing acc with
  | nil => exact hacc
  | cons a as ih =>
    rw [List.foldl_cons]
    apply ih
    intro kv hkv
    unfold dictInsert at hkv
    by_cases hk : acc.any (fun p => p.1 == a.user_id)
    · rw [if_pos hk] at hkv
      rcases List.mem_map.mp hkv with ⟨p, hp, he⟩
      by_cases hpk : (p.1 == a.user_id) = true
      · rw [if_pos hpk] at he
        rw [← he]
      · rw [if_neg hpk] at he
        exact he ▸ hacc p hp
    · rw [if_neg hk] at hkv
      rcases List.mem_append.mp hkv with h | h
      · exact hacc kv h
      · simp at h
        rw [h]

theorem initLikes_vals (ms : List Member) :
    ∀ kv ∈ initLikes ms, kv.2 = ([] : List Int) :=
  foldl_dictInsert_vals ms [] (by simp)

theorem initLikes_ne_nil {ms : List Member} (h : ms ≠ []) :
    initLikes ms ≠ [] := by
  rcases ms with _ | ⟨a, as⟩
  · exact absurd rfl h
  · intro hnil
    have : a.user_id ∈ likeKeys (initLikes (a :: as)) :=
      (likeKeys_initLikes _ _).mpr (by simp)
    rw [hnil] at this
    simp [likeKeys] at this

theorem lookupLikes_of_keys {m : List (String × List Int)} {uid : String}
    (h : uid ∈ likeKeys m) :
    ∃ v, lookupLikes m uid = some v ∧ (uid, v) ∈ m := by
  have hs : (m.find? (fun p => p.1 == uid)).isSome := by
    rw [List.find?_isSome]
    rcases List.mem_map.mp h with ⟨p, hp, he⟩
    exact ⟨p, hp, by simp [he]⟩
  rcases Option.isSome_iff_exists.mp hs with ⟨p, hp⟩
  refine ⟨p.2, by simp [lookupLikes, hp], ?_⟩
  have h1 : p.1 = uid := by simpa using List.find?_some hp
  have h2 : p ∈ m := List.mem_of_find?_eq_some hp
  rw [← h1]
  exact h2

theorem lookupLikes_pushLike_new {m : List (String × List Int)}
    {uid : String} (pid : Int) (h : uid ∉ likeKeys m) :
    lookupLikes (pushLike m uid pid) uid = some [pid] := by
  have hk : m.any (fun p => p.1 == uid) = false := by
    rw [Bool.eq_false_iff]
    intro hany
    rcases List.any_eq_true.mp hany with ⟨p, hp, hb⟩
    exact h (List.mem_map.mpr ⟨p, hp, by simpa using hb⟩)
  unfold pushLike
  rw [hk]
  simp only [Bool.false_eq_true, if_false]
  unfold lookupLikes
  rw [List.find?_append]
  have hnone : m.find? (fun p => p.1 == uid) = none := by
    apply List.find?_eq_none.mpr
    intro p hp hb
    exact h (List.mem_map.mpr ⟨p, hp, by simpa using hb⟩)
  rw [hnone]
  simp

theorem mem_computeMatches {m : List (String × List Int)} {r : List Int}
    (h : computeMatches m = some r) (p : Int) :
    p ∈ r ↔ ∀ kv ∈ m, p ∈ kv.2 := by
  rcases m with _ | ⟨⟨k, v⟩, rest⟩
  · simp [computeMatches] at h
  · simp only [computeMatches, Option.some_inj] at h
    subst h
    rw [List.mem_filter, List.mem_dedup]
    constructor
    · rintro ⟨hv, hall⟩ kv hkv
      have := List.all_eq_true.mp hall kv hkv
      simpa using this
    · intro hmem
      refine ⟨by simpa using hmem (k, v) (by simp), ?_⟩
      apply List.all_eq_true.mpr
      intro kv hkv
      simpa using hmem kv hkv

theorem computeMatches_isSome {m : List (String × List Int)} (h : m ≠ []) :
    ∃ r, computeMatches m = some r := by
  rcases m with _ | ⟨⟨k, v⟩, rest⟩
  · exact absurd rfl h
  · exact ⟨_, rfl⟩

theorem computeMatches_empty_like {m : List (String × List Int)}
    {k : String} {r : List Int} (hk : (k, ([] : List Int)) ∈ m)
    (h : computeMatches m = some r) : r = [] := by
  rw [List.eq_nil_iff_forall_not_mem]
  intro p hp
  have := (mem_computeMatches h p).mp hp (k, []) hk
  simp at this

theorem mem_eraseP_of_not_pred {p : α → Bool} {l : List α} {x : α}
    (hx : x ∈ l) (hpx : p x = false) : x ∈ l.eraseP p := by
  induction l with
  | nil => simp at hx
  | cons a as ih =>
    by_cases hpa : p a = true
    · rw [List.eraseP_cons_of_pos hpa]
      rcases List.mem_cons.mp hx with h | h
      · subst h; rw [hpa] at hpx; cases hpx
      · exact h
    · rw [List.eraseP_cons_of_neg hpa]
      rcases List.mem_cons.mp hx with h | h
      · exact List.mem_cons.mpr (Or.inl h)
      · exact List.mem_cons.mpr (Or.inr (ih h))

/-! ## The unconditional store invariant -/

/-- Properties of the store that hold along every trace, whatever ids the
generators produce: open lobbies always carry status `"open"` and a non-empty
member array (the creator is inserted at creation and members are never
removed), and every active session carries a non-empty `user_likes` dict. -/
structure BInv (s : AppState) : Prop where
  openStatus : ∀ l ∈ s.lobbies, l.status = "open"
  openUsersNe : ∀ l ∈ s.lobbies, l.users ≠ []
  activeLikesNe : ∀ a ∈ s.active_lobbies, a.user_likes ≠ []

theorem BInv_init : BInv initState :=
  ⟨by simp [initState], by simp [initState], by simp [initState]⟩

theorem BInv_step {s : AppState} (h : BInv s) (op : Op) : BInv (step s op) := by
  cases op with
  | createUser uid name =>
    simp only [step]
    unfold create_user
    by_cases h1 : (name.length < 2 || 50 < name.length) = true
    · rw [if_pos h1]; exact h
    · rw [if_neg h1]
      by_cases h2 : (findUser s uid).isSome = true
      · rw [if_pos h2]; exact h
      · rw [if_neg h2]
        exact ⟨h.openStatus, h.openUsersNe, h.activeLikesNe⟩
  | createLobby lid uid =>
    simp only [step]
    unfold create_lobby
    cases hu : findUser s uid with
    | none => exact h
    | some u =>
      dsimp only
      by_cases ht : truthy u.current_lobby_id = true
      · rw [if_pos ht]; exact h
      · rw [if_neg ht]
        by_cases hl : (findLobby s lid).isSome = true
        · rw [if_pos hl]; exact h
        · rw [if_neg hl]
          refine ⟨?_, ?_, ?_⟩
          · intro l hl2
            rcases List.mem_append.mp hl2 with h2 | h2
            · exact h.openStatus l h2
            · simp at h2; rw [h2]
          · intro l hl2
            rcases List.mem_append.mp hl2 with h2 | h2
            · exact h.openUsersNe l h2
            · simp at h2; rw [h2]; simp
          · exact h.activeLikesNe
  | joinLobby lid uid =>
    simp only [step]
    unfold join_lobby
    cases hu : findUser s uid with
    | none => exact h
    | some u =>
      cases hl : findLobby s lid with
      | none => exact h
      | some l =>
        dsimp only
        by_cases ht : truthy u.current_lobby_id = true
        · rw [if_pos ht]; exact h
        · rw [if_neg ht]
          by_cases hst : (l.status != "open") = true
          · rw [if_pos hst]; exact h
          · rw [if_neg hst]
            refine ⟨?_, ?_, ?_⟩
            · exact updateFirst_forall h.openStatus
                (fun x hx => h.openStatus x hx)
            · exact updateFirst_forall h.openUsersNe
                (fun x hx => by simp [pushMember])
            · exact h.activeLikesNe
  | startLobby lid uid =>
    simp only [step]
    unfold start_lobby start_lobby_insert
    cases hu : findUser s uid with
    | none => exact h
    | some u =>
      cases hl : findLobby s lid with
      | none => exact h
      | some l =>
        dsimp only
        by_cases hh : (l.host_id != uid) = true
        · rw [if_pos hh]; exact h
        · rw [if_neg hh]
          unfold start_lobby_delete
          refine ⟨?_, ?_, ?_⟩
          · intro x hx
            exact h.openStatus x ((List.eraseP_sublist _).mem hx)
          · intro x hx
            exact h.openUsersNe x ((List.eraseP_sublist _).mem hx)
          · intro a ha
            rcases List.mem_append.mp ha with h2 | h2
            · exact h.activeLikesNe a h2
            · simp at h2
              rw [h2]
              exact initLikes_ne_nil
                (h.openUsersNe l (findLobby_props hl).1)
  | addLike lid uid pid =>
    simp only [step]
    unfold add_like
    by_cases hp : pid ≤ 0
    · rw [if_pos hp]; exact h
    · rw [if_neg hp]
      cases ha : findActive s lid with
      | none => exact h
      | some act =>
        dsimp only
        cases hc : computeMatches act.user_likes with
        | none =>
          refine ⟨h.openStatus, h.openUsersNe, ?_⟩
          refine updateFirst_forall h.activeLikesNe ?_
          intro x hx
          exact pushLike_ne_nil _ _ _
        | some ms =>
          refine ⟨h.openStatus, h.openUsersNe, ?_⟩
          refine updateFirst_forall h.activeLikesNe ?_
          intro x hx
          exact pushLike_ne_nil _ _ _

/-! ## The id-discipline invariant -/

/-- Properties of the store that hold along every trace whose generated lobby
ids are nonempty and do not collide with a live active-session id (`opOk`):
unique user ids and open-lobby ids (the unique indexes), nonempty lobby ids,
disjointness of the two lobby stores, and membership exclusivity: every user id
occurs in at most one lobby-or-session document, and a user whose stored
`current_lobby_id` is falsy occurs in none. -/
structure XInv (s : AppState) : Prop where
  usersNodup : (userIds s).Nodup
  openNodup : (openIds s).Nodup
  openIdsNe : ∀ l ∈ s.lobbies, l.lobby_id ≠ ""
  disj : ∀ lid ∈ openIds s, lid ∉ activeIds s
  memberLe : ∀ uid, memberDocs s uid ≤ 1
  unattached : ∀ uid, truthyCurrent s uid = false → memberDocs s uid = 0

theorem XInv_init : XInv initState := by
  refine ⟨by simp [userIds, initState], by simp [openIds, initState],
    by simp [initState], by simp [openIds, initState], ?_, ?_⟩
  · intro uid; simp [memberDocs, initState]
  · intro uid _; simp [memberDocs, initState]

theorem find?_append_right_none {p : α → Bool} {l1 l2 : List α}
    (h : l2.find? p = none) : (l1 ++ l2).find? p = l1.find? p := by
  rw [List.find?_append, h, Option.or_none]

theorem truthyCurrent_eq_of_findUser {s s' : AppState} {uid : String}
    (h : findUser s' uid = findUser s uid) :
    truthyCurrent s' uid = truthyCurrent s uid := by
  unfold truthyCurrent
  rw [h]

theorem usersMap_update {users : List UserRec} {uid : String}
    {g : UserRec → UserRec} (hg : ∀ x, (g x).user_id = x.user_id) :
    (updateFirst (userKey uid) g users).map (fun v => v.user_id)
      = users.map (fun v => v.user_id) := by
  apply map_updateFirst_eq
  intro x
  exact hg x

theorem find?_update_userKey_self {users : List UserRec} {uid : String}
    {g : UserRec → UserRec} (hg : ∀ x, (g x).user_id = x.user_id) :
    (updateFirst (userKey uid) g users).find? (userKey uid)
      = (users.find? (userKey uid)).map g := by
  apply find?_updateFirst_self
  intro x
  unfold userKey
  rw [hg x]

theorem find?_update_userKey_other {users : List UserRec} {uid v : String}
    {g : UserRec → UserRec} (hg : ∀ x, (g x).user_id = x.user_id)
    (hne : v ≠ uid) :
    (updateFirst (userKey uid) g users).find? (userKey v)
      = users.find? (userKey v) := by
  apply find?_updateFirst_disj
  · intro x hx
    unfold userKey at hx ⊢
    have hxe : x.user_id = uid := by simpa using hx
    rw [hxe]
    exact beq_false_of_ne (fun hc => hne hc.symm)
  · intro x
    unfold userKey
    rw [hg x]

theorem lobbyMap_update_pushMember {L : List Lobby} {lid uid nm : String}
    {now : Nat} :
    (updateFirst (lobbyKey lid) (pushMember uid nm now) L).map
      (fun l => l.lobby_id) = L.map (fun l => l.lobby_id) := by
  apply map_updateFirst_eq
  intro x
  rfl

theorem activeMap_update_pushDocLike {A : List ActiveLobby}
    {lid uid : String} {pid : Int} :
    (updateFirst (activeKey lid) (pushDocLike uid pid) A).map
      (fun a => a.lobby_id) = A.map (fun a => a.lobby_id) := by
  apply map_updateFirst_eq
  intro x
  rfl

theorem inDocL_pushMember {v uid nm : String} {now : Nat} (hne : v ≠ uid)
    (x : Lobby) : inDocL v (pushMember uid nm now x) = inDocL v x := by
  unfold inDocL pushMember
  simp only [List.any_append, List.any_cons, List.any_nil]
  have hb : (uid == v) = false := beq_false_of_ne (fun hc => hne hc.symm)
  rw [hb]
  simp

theorem countP_update_pushMember {L : List Lobby} {lid uid nm v : String}
    {now : Nat} (hne : v ≠ uid) :
    (updateFirst (lobbyKey lid) (pushMember uid nm now) L).countP (inDocL v)
      = L.countP (inDocL v) := by
  apply countP_updateFirst_eq
  intro x
  exact inDocL_pushMember hne x

theorem countP_update_pushDocLike {A : List ActiveLobby} {lid uid v : String}
    {pid : Int} :
    (updateFirst (activeKey lid) (pushDocLike uid pid) A).countP (inDocA v)
      = A.countP (inDocA v) := by
  apply countP_updateFirst_eq
  intro x
  rfl

theorem truthy_some_of_ne {lid : String} (h : lid ≠ "") :
    truthy (some lid) = true := by
  simp [truthy]
  exact h

theorem XInv_step {s : AppState} (h : XInv s) (op : Op)
    (hok : opOk s op = true) : XInv (step s op) := by
  cases op with
  | createUser uid name =>
    simp only [step]
    unfold create_user
    by_cases h1 : (name.length < 2 || 50 < name.length) = true
    · rw [if_pos h1]; exact h
    · rw [if_neg h1]
      by_cases h2 : (findUser s uid).isSome = true
      · rw [if_pos h2]; exact h
      · rw [if_neg h2]
        have hnone : findUser s uid = none :=
          Option.not_isSome_iff_eq_none.mp h2
        have hnotin : uid ∉ userIds s := findUser_eq_none.mp hnone
        refine ⟨?_, h.openNodup, h.openIdsNe, h.disj, ?_, ?_⟩
        · show (List.map (fun u => u.user_id)
            (s.users ++ [(⟨uid, name, none, false, s.clock⟩ : UserRec)])).Nodup
          rw [List.map_append]
          refine List.Nodup.append h.usersNodup (by simp) ?_
          intro a ha hb
          simp only [List.map_cons, List.map_nil, List.mem_singleton] at hb
          subst hb
          exact hnotin ha
        · intro v
          exact h.memberLe v
        · intro v hv
          apply h.unattached v
          by_cases hvu : v = uid
          · subst hvu
            unfold truthyCurrent
            rw [hnone]
          · have hfe : (s.users ++ [(⟨uid, name, none, false,
                s.clock⟩ : UserRec)]).find? (userKey v)
                = s.users.find? (userKey v) := by
              apply find?_append_right_none
              simp [List.find?_eq_none, userKey]
              exact fun hc => hvu hc.symm
            unfold truthyCurrent findUser at hv ⊢
            dsimp only at hv
            rw [hfe] at hv
            exact hv
  | createLobby lid uid =>
    simp only [step]
    unfold create_lobby
    cases hu : findUser s uid with
    | none => exact h
    | some u =>
      dsimp only
      by_cases ht : truthy u.current_lobby_id = true
      · rw [if_pos ht]; exact h
      · rw [if_neg ht]
        by_cases hl : (findLobby s lid).isSome = true
        · rw [if_pos hl]; exact h
        · rw [if_neg hl]
          have hlnone : findLobby s lid = none :=
            Option.not_isSome_iff_eq_none.mp hl
          have hnotopen : lid ∉ openIds s := findLobby_eq_none.mp hlnone
          have hokl : lid ≠ "" ∧ lid ∉ activeIds s := by
            simp only [opOk, Bool.and_eq_true] at hok
            refine ⟨by simpa using hok.1, by simpa using hok.2⟩
          have htf : truthy u.current_lobby_id = false :=
            Bool.not_eq_true _ ▸ Bool.of_not_eq_true ht
          have htc : truthyCurrent s uid = false := by
            unfold truthyCurrent
            rw [hu]
            exact htf
          have hzero : memberDocs s uid = 0 := h.unattached uid htc
          have hone : ∀ v : String, List.countP (inDocL v)
              [(⟨lid, uid, [⟨uid, u.name, s.clock⟩], s.clock,
                "open"⟩ : Lobby)] = if v = uid then 1 else 0 := by
            intro v
            by_cases hvu : v = uid
            · rw [if_pos hvu]
              simp [List.countP_cons, inDocL, hvu]
            · rw [if_neg hvu]
              simp [List.countP_cons, inDocL]
              exact fun hc => hvu hc.symm
          refine ⟨?_, ?_, ?_, ?_, ?_, ?_⟩
          · show (List.map (fun v => v.user_id)
              (updateFirst (userKey uid) (setCurrentHost lid) s.users)).Nodup
            rw [usersMap_update (g := setCurrentHost lid) (fun x => rfl)]
            exact h.usersNodup
          · show (List.map (fun l => l.lobby_id) (s.lobbies
              ++ [(⟨lid, uid, [⟨uid, u.name, s.clock⟩], s.clock,
                "open"⟩ : Lobby)])).Nodup
            rw [List.map_append]
            refine List.Nodup.append h.openNodup (by simp) ?_
            intro a ha hb
            simp only [List.map_cons, List.map_nil, List.mem_singleton] at hb
            subst hb
            exact hnotopen ha
          · intro l hl2
            rcases List.mem_append.mp hl2 with h2 | h2
            · exact h.openIdsNe l h2
            · simp at h2
              rw [h2]
              exact hokl.1
          · intro j hj
            show j ∉ activeIds s
            have hj2 : j ∈ List.map (fun l => l.lobby_id) s.lobbies
                ∨ j = lid := by
              have hj3 : j ∈ List.map (fun l => l.lobby_id)
                  (s.lobbies ++ [(⟨lid, uid, [⟨uid, u.name, s.clock⟩],
                    s.clock, "open"⟩ : Lobby)]) := hj
              rw [List.map_append] at hj3
              rcases List.mem_append.mp hj3 with h2 | h2
              · exact Or.inl h2
              · simp at h2
                exact Or.inr h2
            rcases hj2 with h2 | h2
            · exact h.disj j h2
            · rw [h2]
              exact hokl.2
          · intro v
            show (s.lobbies ++ [(⟨lid, uid, [⟨uid, u.name, s.clock⟩],
                s.clock, "open"⟩ : Lobby)]).countP (inDocL v)
              + s.active_lobbies.countP (inDocA v) ≤ 1
            rw [List.countP_append, hone v]
            by_cases hvu : v = uid
            · rw [if_pos hvu]
              have h2 : memberDocs s v = 0 := by rw [hvu]; exact hzero
              unfold memberDocs at h2
              omega
            · rw [if_neg hvu]
              have h2 := h.memberLe v
              unfold memberDocs at h2
              omega
          · intro v hv
            by_cases hvu : v = uid
            · exfalso
              rw [hvu] at hv
              have hself : (updateFirst (userKey uid) (setCurrentHost lid)
                  s.users).find? (userKey uid)
                  = (s.users.find? (userKey uid)).map (setCurrentHost lid) :=
                find?_update_userKey_self (fun x => rfl)
              unfold truthyCurrent findUser at hv
              dsimp only at hv
              rw [hself] at hv
              have hfu : s.users.find? (userKey uid) = some u := hu
              rw [hfu] at hv
              simp only [Option.map_some'] at hv
              have h5 : truthy (some lid) = false := hv
              rw [truthy_some_of_ne hokl.1] at h5
              cases h5
            · have hfind : (updateFirst (userKey uid) (setCurrentHost lid)
                  s.users).find? (userKey v) = s.users.find? (userKey v) :=
                find?_update_userKey_other (fun x => rfl) hvu
              have htv : truthyCurrent s v = false := by
                unfold truthyCurrent findUser at hv ⊢
                dsimp only at hv
                rw [hfind] at hv
                exact hv
              have h2 : memberDocs s v = 0 := h.unattached v htv
              show (s.lobbies ++ [(⟨lid, uid, [⟨uid, u.name, s.clock⟩],
                  s.clock, "open"⟩ : Lobby)]).countP (inDocL v)
                + s.active_lobbies.countP (inDocA v) = 0
              rw [List.countP_append, hone v, if_neg hvu]
              unfold memberDocs at h2
              omega
  | joinLobby lid uid =>
    simp only [step]
    unfold join_lobby
    cases hu : findUser s uid with
    | none => exact h
    | some u =>
      cases hl : findLobby s lid with
      | none => exact h
      | some l =>
        dsimp only
        by_cases ht : truthy u.current_lobby_id = true
        · rw [if_pos ht]; exact h
        · rw [if_neg ht]
          by_cases hst : (l.status != "open") = true
          · rw [if_pos hst]; exact h
          · rw [if_neg hst]
            have htf : truthy u.current_lobby_id = false :=
              Bool.not_eq_true _ ▸ Bool.of_not_eq_true ht
            have htc : truthyCurrent s uid = false := by
              unfold truthyCurrent
              rw [hu]
              exact htf
            have hzero : memberDocs s uid = 0 := h.unattached uid htc
            have hlidne : lid ≠ "" := by
              have h5 := h.openIdsNe l (findLobby_props hl).1
              rw [(findLobby_props hl).2] at h5
              exact h5
            refine ⟨?_, ?_, ?_, ?_, ?_, ?_⟩
            · show (List.map (fun v => v.user_id)
                (updateFirst (userKey uid) (setCurrent lid) s.users)).Nodup
              rw [usersMap_update (g := setCurrent lid) (fun x => rfl)]
              exact h.usersNodup
            · show (List.map (fun x => x.lobby_id)
                (updateFirst (lobbyKey lid) (pushMember uid u.name s.clock)
                  s.lobbies)).Nodup
              rw [lobbyMap_update_pushMember]
              exact h.openNodup
            · refine updateFirst_forall h.openIdsNe ?_
              intro x hx
              exact h.openIdsNe x hx
            · intro j hj
              show j ∉ activeIds s
              apply h.disj j
              show j ∈ openIds s
              have hj2 : j ∈ (updateFirst (lobbyKey lid)
                  (pushMember uid u.name s.clock) s.lobbies).map
                  (fun x => x.lobby_id) := hj
              rw [lobbyMap_update_pushMember] at hj2
              exact hj2
            · intro v
              show (updateFirst (lobbyKey lid) (pushMember uid u.name s.clock)
                  s.lobbies).countP (inDocL v)
                + s.active_lobbies.countP (inDocA v) ≤ 1
              by_cases hvu : v = uid
              · have h2 : memberDocs s v = 0 := by rw [hvu]; exact hzero
                unfold memberDocs at h2
                have h3 := countP_updateFirst_le (lobbyKey lid) (inDocL v)
                  (pushMember uid u.name s.clock) s.lobbies
                omega
              · rw [countP_update_pushMember hvu]
                exact h.memberLe v
            · intro v hv
              by_cases hvu : v = uid
              · exfalso
                rw [hvu] at hv
                have hself : (updateFirst (userKey uid) (setCurrent lid)
                    s.users).find? (userKey uid)
                    = (s.users.find? (userKey uid)).map (setCurrent lid) :=
                  find?_update_userKey_self (fun x => rfl)
                unfold truthyCurrent findUser at hv
                dsimp only at hv
                rw [hself] at hv
                have hfu : s.users.find? (userKey uid) = some u := hu
                rw [hfu] at hv
                simp only [Option.map_some'] at hv
                have h5 : truthy (some lid) = false := hv
                rw [truthy_some_of_ne hlidne] at h5
                cases h5
              · have hfind : (updateFirst (userKey uid) (setCurrent lid)
                    s.users).find? (userKey v) = s.users.find? (userKey v) :=
                  find?_update_userKey_other (fun x => rfl) hvu
                have htv : truthyCurrent s v = false := by
                  unfold truthyCurrent findUser at hv ⊢
                  dsimp only at hv
                  rw [hfind] at hv
                  exact hv
                have h2 : memberDocs s v = 0 := h.unattached v htv
                unfold memberDocs at h2
                show (updateFirst (lobbyKey lid)
                    (pushMember uid u.name s.clock) s.lobbies).countP
                    (inDocL v)
                  + s.active_lobbies.countP (inDocA v) = 0
                rw [countP_update_pushMember hvu]
                omega
  | startLobby lid uid =>
    simp only [step]
    unfold start_lobby start_lobby_insert
    cases hu : findUser s uid with
    | none => exact h
    | some u =>
      cases hl : findLobby s lid with
      | none => exact h
      | some l =>
        dsimp only
        by_cases hh : (l.host_id != uid) = true
        · rw [if_pos hh]; exact h
        · rw [if_neg hh]
          unfold start_lobby_delete
          dsimp only
          have hlprops := findLobby_props hl
          have hfind : s.lobbies.find? (lobbyKey lid) = some l := hl
          refine ⟨h.usersNodup, ?_, ?_, ?_, ?_, ?_⟩
          · show (List.map (fun x => x.lobby_id)
              (s.lobbies.eraseP (lobbyKey lid))).Nodup
            exact List.Nodup.sublist
              (List.Sublist.map _ (List.eraseP_sublist _)) h.openNodup
          · intro x hx
            exact h.openIdsNe x ((List.eraseP_sublist _).mem hx)
          · intro j hj
            have hj2 : j ∈ (s.lobbies.eraseP (lobbyKey lid)).map
                (fun x => x.lobby_id) := hj
            have hjopen : j ∈ openIds s :=
              (List.Sublist.map (fun x : Lobby => x.lobby_id)
                (List.eraseP_sublist s.lobbies)).subset hj2
            have hjne : j ≠ lid := by
              intro hc
              subst hc
              exact not_mem_map_eraseP h.openNodup
                (by rw [show s.lobbies.find?
                  (fun x => x.lobby_id == j) = some l from hfind]; rfl) hj2
            show j ∉ List.map (fun a => a.lobby_id)
              (s.active_lobbies ++ [mkActive l s.clock])
            rw [List.map_append]
            intro hcon
            rcases List.mem_append.mp hcon with h2 | h2
            · exact h.disj j hjopen h2
            · simp only [List.map_cons, List.map_nil,
                List.mem_singleton] at h2
              apply hjne
              rw [h2]
              show l.lobby_id = lid
              exact hlprops.2
          · intro v
            have hχ := countP_eraseP_of_find? (q := inDocL v) hfind
            have hA : inDocA v (mkActive l s.clock) = inDocL v l := rfl
            show (s.lobbies.eraseP (lobbyKey lid)).countP (inDocL v)
              + (s.active_lobbies ++ [mkActive l s.clock]).countP (inDocA v)
                ≤ 1
            rw [List.countP_append]
            have h2 := h.memberLe v
            unfold memberDocs at h2
            have h3 : List.countP (inDocA v) [mkActive l s.clock]
                = if inDocL v l then 1 else 0 := by
              simp only [List.countP_cons, List.countP_nil, hA]
              omega
            omega
          · intro v hv
            have htv : truthyCurrent s v = false := hv
            have h2 : memberDocs s v = 0 := h.unattached v htv
            unfold memberDocs at h2
            have hχ := countP_eraseP_of_find? (q := inDocL v) hfind
            have hA : inDocA v (mkActive l s.clock) = inDocL v l := rfl
            show (s.lobbies.eraseP (lobbyKey lid)).countP (inDocL v)
              + (s.active_lobbies ++ [mkActive l s.clock]).countP (inDocA v)
                = 0
            rw [List.countP_append]
            have h3 : List.countP (inDocA v) [mkActive l s.clock]
                = if inDocL v l then 1 else 0 := by
              simp only [List.countP_cons, List.countP_nil, hA]
              omega
            omega
  | addLike lid uid pid =>
    simp only [step]
    unfold add_like
    by_cases hp : pid ≤ 0
    · rw [if_pos hp]; exact h
    · rw [if_neg hp]
      cases ha : findActive s lid with
      | none => exact h
      | some act =>
        dsimp only
        have key : XInv { s with
            active_lobbies := updateFirst (activeKey lid)
              (pushDocLike uid pid) s.active_lobbies,
            clock := s.clock + 1 } := by
          refine ⟨h.usersNodup, h.openNodup, h.openIdsNe, ?_, ?_, ?_⟩
          · intro j hj
            show j ∉ (updateFirst (activeKey lid) (pushDocLike uid pid)
              s.active_lobbies).map (fun x => x.lobby_id)
            rw [activeMap_update_pushDocLike]
            exact h.disj j hj
          · intro v
            show s.lobbies.countP (inDocL v)
              + (updateFirst (activeKey lid) (pushDocLike uid pid)
                s.active_lobbies).countP (inDocA v) ≤ 1
            rw [countP_update_pushDocLike]
            exact h.memberLe v
          · intro v hv
            have h2 : memberDocs s v = 0 := h.unattached v hv
            unfold memberDocs at h2
            show s.lobbies.countP (inDocL v)
              + (updateFirst (activeKey lid) (pushDocLike uid pid)
                s.active_lobbies).countP (inDocA v) = 0
            rw [countP_update_pushDocLike]
            omega
        cases hc : computeMatches act.user_likes with
        | none => exact key
        | some ms => exact key


theorem BInv_foldl {s : AppState} (h : BInv s) (ops : List Op) :
    BInv (ops.foldl step s) := by
  induction ops generalizing s with
  | nil => exact h
  | cons op ops ih => exact ih (BInv_step h op)

theorem BInv_exec (ops : List Op) : BInv (exec ops) :=
  BInv_foldl BInv_init ops

theorem XInv_foldl {s : AppState} (h : XInv s) {ops : List Op}
    (hok : okTrace s ops = true) : XInv (ops.foldl step s) := by
  induction ops generalizing s with
  | nil => exact h
  | cons op ops ih =>
    simp only [okTrace, Bool.and_eq_true] at hok
    exact ih (XInv_step h op hok.1) hok.2

theorem XInv_exec {ops : List Op} (hok : okTrace initState ops = true) :
    XInv (exec ops) :=
  XInv_foldl XInv_init hok

theorem exec_append (ops ops' : List Op) :
    exec (ops ++ ops') = ops'.foldl step (exec ops) := by
  unfold exec
  rw [List.foldl_append]

theorem okTrace_append {s : AppState} {l1 l2 : List Op}
    (h : okTrace s (l1 ++ l2) = true) :
    okTrace s l1 = true ∧ okTrace (l1.foldl step s) l2 = true := by
  induction l1 generalizing s with
  | nil => exact ⟨rfl, h⟩
  | cons op ops ih =>
    simp only [List.cons_append, okTrace, Bool.and_eq_true] at h
    rcases ih h.2 with ⟨h1, h2⟩
    exact ⟨by simp [okTrace, h.1, h1], h2⟩

/-- A lobby id that resolves in one of the two stores keeps resolving in one
of them after any further operation: open lobbies are only ever deleted by
`start_lobby`, which inserts the same id into the active store first, and
active sessions are never deleted. -/
theorem union_persists (s : AppState) (op : Op) (lid : String)
    (h : lid ∈ openIds s ∨ lid ∈ activeIds s) :
    lid ∈ openIds (step s op) ∨ lid ∈ activeIds (step s op) := by
  cases op with
  | createUser uid name =>
    simp only [step]
    unfold create_user
    by_cases h1 : (name.length < 2 || 50 < name.length) = true
    · rw [if_pos h1]; exact h
    · rw [if_neg h1]
      by_cases h2 : (findUser s uid).isSome = true
      · rw [if_pos h2]; exact h
      · rw [if_neg h2]; exact h
  | createLobby k uid =>
    simp only [step]
    unfold create_lobby
    cases hu : findUser s uid with
    | none => exact h
    | some u =>
      dsimp only
      by_cases ht : truthy u.current_lobby_id = true
      · rw [if_pos ht]; exact h
      · rw [if_neg ht]
        by_cases hl : (findLobby s k).isSome = true
        · rw [if_pos hl]; exact h
        · rw [if_neg hl]
          rcases h with h | h
          · left
            show lid ∈ List.map (fun l => l.lobby_id) (s.lobbies ++ [_])
            rw [List.map_append]
            exact List.mem_append.mpr (Or.inl h)
          · right
            exact h
  | joinLobby k uid =>
    simp only [step]
    unfold join_lobby
    cases hu : findUser s uid with
    | none => exact h
    | some u =>
      cases hl : findLobby s k with
      | none => exact h
      | some l =>
        dsimp only
        by_cases ht : truthy u.current_lobby_id = true
        · rw [if_pos ht]; exact h
        · rw [if_neg ht]
          by_cases hst : (l.status != "open") = true
          · rw [if_pos hst]; exact h
          · rw [if_neg hst]
            rcases h with h | h
            · left
              show lid ∈ (updateFirst (lobbyKey k)
                (pushMember uid u.name s.clock) s.lobbies).map
                (fun x => x.lobby_id)
              rw [lobbyMap_update_pushMember]
              exact h
            · right
              exact h
  | startLobby k uid =>
    simp only [step]
    unfold start_lobby start_lobby_insert
    cases hu : findUser s uid with
    | none => exact h
    | some u =>
      cases hl : findLobby s k with
      | none => exact h
      | some l =>
        dsimp only
        by_cases hh : (l.host_id != uid) = true
        · rw [if_pos hh]; exact h
        · rw [if_neg hh]
          unfold start_lobby_delete
          dsimp only
          have hactive : lid = k →
              lid ∈ List.map (fun a => a.lobby_id)
                (s.active_lobbies ++ [mkActive l s.clock]) := by
            intro he
            rw [List.map_append]
            apply List.mem_append.mpr
            right
            simp only [List.map_cons, List.map_nil, List.mem_singleton]
            rw [he]
            show k = l.lobby_id
            exact (findLobby_props hl).2.symm
          rcases h with h | h
          · by_cases he : lid = k
            · right
              exact hactive he
            · left
              exact mem_map_eraseP_of_ne h he
          · right
            show lid ∈ List.map (fun a => a.lobby_id)
              (s.active_lobbies ++ [mkActive l s.clock])
            rw [List.map_append]
            exact List.mem_append.mpr (Or.inl h)
  | addLike k uid pid =>
    simp only [step]
    unfold add_like
    by_cases hp : pid ≤ 0
    · rw [if_pos hp]; exact h
    · rw [if_neg hp]
      cases ha : findActive s k with
      | none => exact h
      | some act =>
        dsimp only
        have key : lid ∈ openIds s ∨
            lid ∈ (updateFirst (activeKey k) (pushDocLike uid pid)
              s.active_lobbies).map (fun a => a.lobby_id) := by
          rcases h with h | h
          · left; exact h
          · right
            rw [activeMap_update_pushDocLike]
            exact h
        cases hc : computeMatches act.user_likes with
        | none => exact key
        | some ms => exact key

theorem union_persists_foldl (ops : List Op) (s : AppState) (lid : String)
    (h : lid ∈ openIds s ∨ lid ∈ activeIds s) :
    lid ∈ openIds (ops.foldl step s) ∨ lid ∈ activeIds (ops.foldl step s) := by
  induction ops generalizing s with
  | nil => exact h
  | cons op ops ih => exact ih (step s op) (union_persists s op lid h)

/-- The ids listed by `GET /lobbies/open` are ids of open-lobby documents
(the sort is a permutation, the filter a sublist). -/
theorem get_open_lobbies_sub {s : AppState} {j : String}
    (hj : j ∈ (get_open_lobbies s).map (fun r => r.lobby_id)) :
    j ∈ openIds s := by
  unfold get_open_lobbies at hj
  rw [List.map_map] at hj
  rcases List.mem_map.mp hj with ⟨l, hl, he⟩
  have hl2 : l ∈ s.lobbies.filter (fun l => l.status == "open") :=
    List.mem_mergeSort.mp hl
  have hl3 : l ∈ s.lobbies := List.mem_of_mem_filter hl2
  exact List.mem_map.mpr ⟨l, hl3, he⟩

/-- The set of ids listed by `GET /lobbies/open` is the set of ids of
open-status documents: the sort by `created_at` is a permutation. -/
theorem mem_get_open_lobbies_iff {s : AppState} {j : String} :
    j ∈ (get_open_lobbies s).map (fun r => r.lobby_id)
      ↔ j ∈ (s.lobbies.filter (fun l => l.status == "open")).map
          (fun l => l.lobby_id) := by
  unfold get_open_lobbies
  rw [List.map_map]
  constructor
  · intro hj
    rcases List.mem_map.mp hj with ⟨l, hl, he⟩
    exact List.mem_map.mpr ⟨l, List.mem_mergeSort.mp hl, he⟩
  · intro hj
    rcases List.mem_map.mp hj with ⟨l, hl, he⟩
    exact List.mem_map.mpr ⟨l, List.mem_mergeSort.mpr hl, he⟩

/-- Success inversion for `start_lobby`: a success implies the user and lobby
resolved, the requester is the host, and the final state is exactly the
insert-into-active / delete-from-open state. -/
theorem start_lobby_ok_inv {s : AppState} {lid uid : String}
    (h : (start_lobby s lid uid).1 = Except.ok ()) :
    ∃ u l, findUser s uid = some u ∧ findLobby s lid = some l
      ∧ l.host_id = uid
      ∧ (start_lobby s lid uid).2
        = ⟨s.users, s.lobbies.eraseP (lobbyKey lid),
            s.active_lobbies ++ [mkActive l s.clock], s.clock + 1⟩ := by
  unfold start_lobby start_lobby_insert at h ⊢
  cases hu : findUser s uid with
  | none =>
    rw [hu] at h
    dsimp only at h
    exact Except.noConfusion h
  | some u =>
    cases hl : findLobby s lid with
    | none =>
      rw [hu, hl] at h
      dsimp only at h
      exact Except.noConfusion h
    | some l =>
      rw [hu, hl] at h
      dsimp only at h ⊢
      by_cases hh : (l.host_id != uid) = true
      · rw [if_pos hh] at h
        dsimp only at h
        exact Except.noConfusion h
      · rw [if_neg hh] at h ⊢
        dsimp only at h ⊢
        refine ⟨u, l, rfl, rfl, ?_, ?_⟩
        · have h2 : (l.host_id != uid) = false :=
            Bool.not_eq_true _ ▸ Bool.of_not_eq_true hh
          simpa using h2
        · unfold start_lobby_delete
          rfl

/-- `find_one` on the active store after `add_like`'s `$push` returns the
pushed document (same first match, `lobby_id` unchanged). -/
theorem findActive_after_push {A : List ActiveLobby} {lid uid : String}
    {pid : Int} :
    (updateFirst (activeKey lid) (pushDocLike uid pid) A).find?
      (activeKey lid) = (A.find? (activeKey lid)).map (pushDocLike uid pid) := by
  apply find?_updateFirst_self
  intro x
  rfl

/-! ## Concrete traces used as counterexamples and witnesses -/

/-- Create two users, a lobby hosted by `u1`, have `u2` join, start. -/
def twoUserTrace : List Op :=
  [Op.createUser "u1" "Ann", Op.createUser "u2" "Ben",
   Op.createLobby "L0001" "u1", Op.joinLobby "L0001" "u2",
   Op.startLobby "L0001" "u1"]

/-- `twoUserTrace`, then `u1` likes place `5`. -/
def c1Trace : List Op := twoUserTrace ++ [Op.addLike "L0001" "u1" 5]

/-- Users `u1`, `u2` and an open lobby `L0001` hosted by `u1`. -/
def c2Base : AppState :=
  exec [Op.createUser "u1" "Ann", Op.createUser "u2" "Ben",
    Op.createLobby "L0001" "u1"]

/-- The state in the middle of `start_lobby`: the active document has been
inserted, the open document not yet deleted. -/
def c2Mid : AppState := (start_lobby_insert c2Base "L0001" "u1").2

/-- The state after a join interleaves between the two halves of
`start_lobby`. -/
def c2Final : AppState :=
  start_lobby_delete (join_lobby c2Mid "L0001" "u2").2 "L0001"

/-- A lobby is created, started, and then the (collision-prone) id generator
hands the same id to a second `create_lobby`. -/
def c3Trace : List Op :=
  [Op.createUser "u1" "Ann", Op.createLobby "L0001" "u1",
   Op.startLobby "L0001" "u1", Op.createUser "u2" "Ben",
   Op.createLobby "L0001" "u2"]

/-! ## Claims -/

/-- C1: the spec claims every `add_like` call returns the intersection of all
current like sequences over the state that includes the like just appended —
in particular after U1 and U2 both like place 5, U2's call returns `{5}`.
The code computes the intersection from the document it fetched BEFORE the
`$push`, so U2's call returns `[]`, while the intersection over the post-push
state (shown on the right) is `[5]`. -/
theorem c1_match_set_is_stale :
    (add_like (exec c1Trace) "L0001" "u2" 5).1 = Except.ok []
    ∧ ((add_like (exec c1Trace) "L0001" "u2" 5).2.active_lobbies.map
        (fun a => computeMatches a.user_likes)) = [some [5]]
    ∧ (5 : Int) ∉ ([] : List Int) := by
  refine ⟨by decide, by decide, by decide⟩

/-- C2: the spec requires activation to be atomic with respect to concurrent
joins: a join either lands in the snapshot or fails with `LobbyNotOpen`.  The
code issues `insert_one` and `delete_one` as two independent database calls;
a join scheduled between them returns success, yet afterwards the joiner is a
member of no lobby-or-session document (`memberDocs = 0`) while their
`current_lobby_id` points at the started lobby, and no open lobby remains. -/
theorem c2_interleaved_join_is_lost :
    (start_lobby_insert c2Base "L0001" "u1").1 = Except.ok ()
    ∧ (join_lobby c2Mid "L0001" "u2").1 = Except.ok ()
    ∧ memberDocs c2Final "u2" = 0
    ∧ truthyCurrent c2Final "u2" = true
    ∧ openIds c2Final = [] := by
  refine ⟨by decide, by decide, by decide, by decide, by decide⟩

/-- C3 counterexample: nothing stops the timestamp-hash id generator from
reusing the id of an already-activated lobby — the unique index only covers
the open store.  After the reuse the id resolves to BOTH an open lobby and an
active session, and the open-lobby listing shows the id of an activated
lobby. -/
theorem c3_counterexample_id_collision :
    "L0001" ∈ openIds (exec c3Trace)
    ∧ "L0001" ∈ activeIds (exec c3Trace)
    ∧ "L0001" ∈ (get_open_lobbies (exec c3Trace)).map (fun r => r.lobby_id) := by
  refine ⟨by decide, by decide, mem_get_open_lobbies_iff.mpr (by decide)⟩

/-- C3 (amended): provided every generated lobby id is nonempty and never
collides with a live open-lobby or active-session id, each created lobby id
resolves to exactly one of the two stores: never both; once present it stays
present under any further operations; after a successful `start_lobby` the id
resolves only via the active store; and the open-lobby listing never contains
an activated id. -/
theorem c3_unique_resolution (ops : List Op)
    (hok : okTrace initState ops = true) :
    (∀ lid, ¬(lid ∈ openIds (exec ops) ∧ lid ∈ activeIds (exec ops)))
    ∧ (∀ lid ops', (lid ∈ openIds (exec ops) ∨ lid ∈ activeIds (exec ops)) →
        lid ∈ openIds (exec (ops ++ ops'))
          ∨ lid ∈ activeIds (exec (ops ++ ops')))
    ∧ (∀ lid uid, (start_lobby (exec ops) lid uid).1 = Except.ok () →
        lid ∉ openIds (exec (ops ++ [Op.startLobby lid uid]))
          ∧ lid ∈ activeIds (exec (ops ++ [Op.startLobby lid uid])))
    ∧ (∀ lid, lid ∈ activeIds (exec ops) →
        lid ∉ (get_open_lobbies (exec ops)).map (fun r => r.lobby_id)) := by
  have hx := XInv_exec hok
  refine ⟨?_, ?_, ?_, ?_⟩
  · rintro lid ⟨h1, h2⟩
    exact hx.disj lid h1 h2
  · intro lid ops' hmem
    rw [exec_append]
    exact union_persists_foldl ops' (exec ops) lid hmem
  · intro lid uid hok2
    rcases start_lobby_ok_inv hok2 with ⟨u, l, hu, hl, hh, hstate⟩
    have hstep : exec (ops ++ [Op.startLobby lid uid])
        = (start_lobby (exec ops) lid uid).2 := by
      rw [exec_append]
      rfl
    rw [hstep, hstate]
    constructor
    · show lid ∉ ((exec ops).lobbies.eraseP (lobbyKey lid)).map
        (fun x => x.lobby_id)
      exact not_mem_map_eraseP hx.openNodup
        (by rw [show (exec ops).lobbies.find?
          (fun x => x.lobby_id == lid) = some l from hl]; rfl)
    · show lid ∈ List.map (fun a => a.lobby_id)
        ((exec ops).active_lobbies ++ [mkActive l (exec ops).clock])
      rw [List.map_append]
      apply List.mem_append.mpr
      right
      simp only [List.map_cons, List.map_nil, List.mem_singleton]
      show lid = l.lobby_id
      exact (findLobby_props hl).2.symm
  · intro lid hact hlist
    exact hx.disj lid (get_open_lobbies_sub hlist) hact

/-- `join_lobby` returns 404 whenever the lobby id does not resolve in the
open store, whatever the user's state. -/
theorem join_lobby_not_found {s : AppState} {lid uid : String}
    (h : findLobby s lid = none) :
    (join_lobby s lid uid).1 = Except.error Err.notFound := by
  unfold join_lobby
  cases hu : findUser s uid with
  | none => rfl
  | some u =>
    rw [h]

/-- `join_lobby` returns `LobbyNotOpen` exactly on an open-store document
whose status is not `"open"`, for an existing unattached user. -/
theorem join_lobby_status_check {s : AppState} {lid uid : String}
    {u : UserRec} {l : Lobby} (hu : findUser s uid = some u)
    (ht : truthy u.current_lobby_id = false) (hl : findLobby s lid = some l)
    (hs : l.status ≠ "open") :
    (join_lobby s lid uid).1 = Except.error Err.lobbyNotOpen := by
  unfold join_lobby
  rw [hu, hl]
  dsimp only
  rw [if_neg (by rw [ht]; simp), if_pos (bne_iff_ne.mpr hs)]

/-- An element of a list keeps its position under `update_one`, either
unchanged or mapped through the update. -/
theorem getElem?_updateFirst {p : α → Bool} {f : α → α} :
    ∀ (l : List α) (i : Nat) (a : α), l[i]? = some a →
      (updateFirst p f l)[i]? = some a ∨ (updateFirst p f l)[i]? = some (f a)
  | [], i, a, h => by simp at h
  | x :: xs, 0, a, h => by
    simp only [List.getElem?_cons_zero, Option.some_inj] at h
    subst h
    simp only [updateFirst]
    by_cases hpx : p x
    · rw [if_pos hpx]
      right
      simp
    · rw [if_neg hpx]
      left
      simp
  | x :: xs, i + 1, a, h => by
    simp only [List.getElem?_cons_succ] at h
    simp only [updateFirst]
    by_cases hpx : p x
    · rw [if_pos hpx]
      left
      simpa using h
    · rw [if_neg hpx]
      rcases getElem?_updateFirst xs i a h with h2 | h2
      · left
        simpa using h2
      · right
        simpa using h2

/-- Pointwise monotonicity of the active store under one step: the document
at each position keeps its id and member snapshot, and its `user_likes` keys
only grow; no document is ever removed. -/
theorem active_docs_monotone (s : AppState) (op : Op) (i : Nat)
    (a : ActiveLobby) (h : s.active_lobbies[i]? = some a) :
    ∃ a', (step s op).active_lobbies[i]? = some a'
      ∧ a'.lobby_id = a.lobby_id ∧ a'.users = a.users
      ∧ ∀ k ∈ likeKeys a.user_likes, k ∈ likeKeys a'.user_likes := by
  have hlt : i < s.active_lobbies.length :=
    (List.getElem?_eq_some.mp h).1
  cases op with
  | createUser uid name =>
    refine ⟨a, ?_, rfl, rfl, fun k hk => hk⟩
    simp only [step]
    unfold create_user
    by_cases h1 : (name.length < 2 || 50 < name.length) = true
    · rw [if_pos h1]; exact h
    · rw [if_neg h1]
      by_cases h2 : (findUser s uid).isSome = true
      · rw [if_pos h2]; exact h
      · rw [if_neg h2]; exact h
  | createLobby lid uid =>
    refine ⟨a, ?_, rfl, rfl, fun k hk => hk⟩
    simp only [step]
    unfold create_lobby
    cases hu : findUser s uid with
    | none => exact h
    | some u =>
      dsimp only
      by_cases ht : truthy u.current_lobby_id = true
      · rw [if_pos ht]; exact h
      · rw [if_neg ht]
        by_cases hl : (findLobby s lid).isSome = true
        · rw [if_pos hl]; exact h
        · rw [if_neg hl]; exact h
  | joinLobby lid uid =>
    refine ⟨a, ?_, rfl, rfl, fun k hk => hk⟩
    simp only [step]
    unfold join_lobby
    cases hu : findUser s uid with
    | none => exact h
    | some u =>
      cases hl : findLobby s lid with
      | none => exact h
      | some l =>
        dsimp only
        by_cases ht : truthy u.current_lobby_id = true
        · rw [if_pos ht]; exact h
        · rw [if_neg ht]
          by_cases hst : (l.status != "open") = true
          · rw [if_pos hst]; exact h
          · rw [if_neg hst]; exact h
  | startLobby lid uid =>
    simp only [step]
    unfold start_lobby start_lobby_insert
    cases hu : findUser s uid with
    | none => exact ⟨a, h, rfl, rfl, fun k hk => hk⟩
    | some u =>
      cases hl : findLobby s lid with
      | none => exact ⟨a, h, rfl, rfl, fun k hk => hk⟩
      | some l =>
        dsimp only
        by_cases hh : (l.host_id != uid) = true
        · rw [if_pos hh]
          exact ⟨a, h, rfl, rfl, fun k hk => hk⟩
        · rw [if_neg hh]
          refine ⟨a, ?_, rfl, rfl, fun k hk => hk⟩
          unfold start_lobby_delete
          show (s.active_lobbies ++ [mkActive l s.clock])[i]? = some a
          rw [List.getElem?_append_left hlt]
          exact h
  | addLike lid uid pid =>
    simp only [step]
    unfold add_like
    by_cases hp : pid ≤ 0
    · rw [if_pos hp]
      exact ⟨a, h, rfl, rfl, fun k hk => hk⟩
    · rw [if_neg hp]
      cases ha : findActive s lid with
      | none => exact ⟨a, h, rfl, rfl, fun k hk => hk⟩
      | some act =>
        dsimp only
        have key : ∃ a', (updateFirst (activeKey lid) (pushDocLike uid pid)
            s.active_lobbies)[i]? = some a'
            ∧ a'.lobby_id = a.lobby_id ∧ a'.users = a.users
            ∧ ∀ k ∈ likeKeys a.user_likes, k ∈ likeKeys a'.user_likes := by
          rcases getElem?_updateFirst s.active_lobbies i a h with h2 | h2
          · exact ⟨a, h2, rfl, rfl, fun k hk => hk⟩
          · refine ⟨pushDocLike uid pid a, h2, rfl, rfl, ?_⟩
            intro k hk
            show k ∈ likeKeys (pushLike a.user_likes uid pid)
            exact (likeKeys_pushLike _ _ _ _).mpr (Or.inl hk)
        cases hc : computeMatches act.user_likes with
        | none => exact key
        | some ms => exact key

def weirdState : AppState :=
  ⟨[⟨"u9", "Zed", none, false, 0⟩],
   [⟨"L9", "u9", [⟨"u9", "Zed", 0⟩], 0, "active"⟩], [], 1⟩

/-- C4 counterexample: `L0001` has been activated, so its status is no longer
`"open"`, yet `join_lobby` — even for `u2`, who had joined it successfully —
returns `NotFound`, not `LobbyNotOpen`: the activated lobby no longer resolves
in the open store, which is the only store `join_lobby` consults. -/
theorem c4_counterexample_join_after_start :
    (join_lobby (exec twoUserTrace) "L0001" "u2").1
      = Except.error Err.notFound
    ∧ "L0001" ∈ activeIds (exec twoUserTrace)
    ∧ Err.notFound ≠ Err.lobbyNotOpen := by
  refine ⟨by decide, by decide, by decide⟩

/-- C4 (amended): `join_lobby` on a lobby id that does not resolve in the
open store — in particular any activated lobby — fails with `NotFound`
regardless of the user's state and prior joins; the `LobbyNotOpen` error is
produced exactly when the id still resolves to an open-store document whose
status is not `"open"` and the user exists and is unattached. -/
theorem c4_join_nonopen :
    (∀ (s : AppState) (lid uid : String), findLobby s lid = none →
      (join_lobby s lid uid).1 = Except.error Err.notFound)
    ∧ (∀ (ops : List Op) (lid uid j : String),
        okTrace initState (ops ++ [Op.startLobby lid uid]) = true →
        (start_lobby (exec ops) lid uid).1 = Except.ok () →
        (join_lobby (exec (ops ++ [Op.startLobby lid uid])) lid j).1
          = Except.error Err.notFound)
    ∧ (∀ (s : AppState) (lid uid : String) (u : UserRec) (l : Lobby),
        findUser s uid = some u →
        truthy u.current_lobby_id = false →
        findLobby s lid = some l → l.status ≠ "open" →
        (join_lobby s lid uid).1 = Except.error Err.lobbyNotOpen) := by
  refine ⟨?_, ?_, ?_⟩
  · intro s lid uid hnone
    exact join_lobby_not_found hnone
  · intro ops lid uid j hok hstart
    have hok1 : okTrace initState ops = true := (okTrace_append hok).1
    have hx := XInv_exec hok1
    rcases start_lobby_ok_inv hstart with ⟨u, l, hu, hl, hh, hstate⟩
    have hstep : exec (ops ++ [Op.startLobby lid uid])
        = (start_lobby (exec ops) lid uid).2 := by
      rw [exec_append]
      rfl
    apply join_lobby_not_found
    apply findLobby_eq_none.mpr
    rw [hstep, hstate]
    show lid ∉ ((exec ops).lobbies.eraseP (lobbyKey lid)).map
      (fun x => x.lobby_id)
    exact not_mem_map_eraseP hx.openNodup
      (by rw [show (exec ops).lobbies.find?
        (fun x => x.lobby_id == lid) = some l from hl]; rfl)
  · intro s lid uid u l hu ht hl hs
    exact join_lobby_status_check hu ht hl hs

/-- C4 witness: the three amended conjuncts instantiated concretely — a join
on an unknown id, a join on the freshly started `L0001`, and a join on the
hand-built open-store document with status `"active"`. -/
theorem c4_join_nonopen_witness :
    (join_lobby (exec twoUserTrace) "ZZZZ" "u2").1
      = Except.error Err.notFound
    ∧ (join_lobby (exec ((twoUserTrace.take 4)
        ++ [Op.startLobby "L0001" "u1"])) "L0001" "u2").1
      = Except.error Err.notFound
    ∧ (join_lobby weirdState "L9" "u9").1
      = Except.error Err.lobbyNotOpen := by
  have h := c4_join_nonopen
  exact ⟨h.1 (exec twoUserTrace) "ZZZZ" "u2" (by decide),
    h.2.1 (twoUserTrace.take 4) "L0001" "u1" "u2" (by decide) (by decide),
    h.2.2 weirdState "L9" "u9" ⟨"u9", "Zed", none, false, 0⟩
      ⟨"L9", "u9", [⟨"u9", "Zed", 0⟩], 0, "active"⟩
      (by decide) (by decide) (by decide) (by decide)⟩

/-- `add_like` on a resolving session with a positive place id: the returned
value is the intersection of the PRE-push document, and the new state carries
the pushed document. -/
theorem add_like_ok_spec {s : AppState} {lid : String} (uid : String)
    {pid : Int} {act : ActiveLobby} {r : List Int}
    (hp : ¬pid ≤ 0) (ha : findActive s lid = some act)
    (hr : computeMatches act.user_likes = some r) :
    (add_like s lid uid pid).1 = Except.ok r
    ∧ (add_like s lid uid pid).2
        = { s with
            active_lobbies :=
              updateFirst (activeKey lid) (pushDocLike uid pid)
                s.active_lobbies,
            clock := s.clock + 1 } := by
  unfold add_like
  rw [if_neg hp, ha]
  dsimp only
  rw [hr]
  exact ⟨rfl, rfl⟩

/-- `start_lobby` on a lobby id that does not resolve in the open store
returns 404 whatever the user. -/
theorem start_lobby_not_found {s : AppState} {lid uid : String}
    (h : findLobby s lid = none) :
    (start_lobby s lid uid).1 = Except.error Err.notFound := by
  unfold start_lobby start_lobby_insert
  cases hu : findUser s uid with
  | none => rfl
  | some u =>
    rw [h]

/-- `start_lobby` by a non-host returns 403. -/
theorem start_lobby_forbidden {s : AppState} {lid uid : String}
    {u : UserRec} {l : Lobby} (hu : findUser s uid = some u)
    (hl : findLobby s lid = some l) (hh : l.host_id ≠ uid) :
    (start_lobby s lid uid).1 = Except.error Err.forbidden := by
  unfold start_lobby start_lobby_insert
  rw [hu, hl]
  dsimp only
  rw [if_pos (bne_iff_ne.mpr hh)]

/-- `start_lobby` by the host of a resolving lobby succeeds, and the final
state is the insert-into-active / delete-from-open state. -/
theorem start_lobby_ok_spec {s : AppState} {lid uid : String}
    {u : UserRec} {l : Lobby} (hu : findUser s uid = some u)
    (hl : findLobby s lid = some l) (hh : l.host_id = uid) :
    (start_lobby s lid uid).1 = Except.ok ()
    ∧ (start_lobby s lid uid).2
      = ⟨s.users, s.lobbies.eraseP (lobbyKey lid),
          s.active_lobbies ++ [mkActive l s.clock], s.clock + 1⟩ := by
  unfold start_lobby start_lobby_insert
  rw [hu, hl]
  dsimp only
  rw [if_neg (by simp [hh])]
  dsimp only
  exact ⟨rfl, rfl⟩

/-- A snapshotted member's entry in the freshly built likes mapping is the
empty sequence. -/
theorem lookupLikes_initLikes {ms : List Member} {uid : String}
    (h : uid ∈ ms.map (fun m => m.user_id)) :
    lookupLikes (initLikes ms) uid = some [] := by
  have hk : uid ∈ likeKeys (initLikes ms) := (likeKeys_initLikes ms uid).mpr h
  rcases lookupLikes_of_keys hk with ⟨v, hv, hmem⟩
  have hval : v = [] := initLikes_vals ms (uid, v) hmem
  rw [hv, hval]

/-- The session document created by `twoUserTrace` (clock values included). -/
def sessionDoc : ActiveLobby :=
  ⟨"L0001", "u1", [⟨"u1", "Ann", 2⟩, ⟨"u2", "Ben", 3⟩], 2, "active", 4,
    [("u1", []), ("u2", [])]⟩

/-- C5 counterexample: a like by the unknown user id `uX` creates a
`user_likes` key outside the member snapshot, so the key set is no longer
exactly the snapshotted member ids. -/
theorem c5_counterexample_nonmember_key :
    ((exec (twoUserTrace ++ [Op.addLike "L0001" "uX" 7])).active_lobbies.map
        (fun a => likeKeys a.user_likes)) = [["u1", "u2", "uX"]]
    ∧ ((exec (twoUserTrace ++ [Op.addLike "L0001" "uX" 7])).active_lobbies.map
        (fun a => a.users.map (fun m => m.user_id))) = [["u1", "u2"]]
    ∧ "uX" ∉ ["u1", "u2"] := by
  refine ⟨by decide, by decide, by decide⟩

/-- C5 (amended): at activation the likes keys are exactly the snapshotted
member user_ids, and no operation ever removes a session document or one of
its likes keys; but the key set is not invariant — `add_like` may add a key
for a user id outside the snapshot (see the counterexample). -/
theorem c5_likes_keys (s : AppState) :
    (∀ lid uid, (start_lobby s lid uid).1 = Except.ok () →
      ∃ l, findLobby s lid = some l
        ∧ (start_lobby s lid uid).2.active_lobbies
            = s.active_lobbies ++ [mkActive l s.clock]
        ∧ (∀ k, k ∈ likeKeys (mkActive l s.clock).user_likes
            ↔ k ∈ l.users.map (fun m => m.user_id)))
    ∧ (∀ (op : Op) (i : Nat) (a : ActiveLobby),
        s.active_lobbies[i]? = some a →
        ∃ a', (step s op).active_lobbies[i]? = some a'
          ∧ a'.lobby_id = a.lobby_id
          ∧ ∀ k ∈ likeKeys a.user_likes, k ∈ likeKeys a'.user_likes) := by
  constructor
  · intro lid uid h
    rcases start_lobby_ok_inv h with ⟨u, l, hu, hl, hh, hstate⟩
    refine ⟨l, hl, by rw [hstate], ?_⟩
    intro k
    show k ∈ likeKeys (initLikes l.users) ↔ _
    exact likeKeys_initLikes l.users k
  · intro op i a h
    rcases active_docs_monotone s op i a h with ⟨a', h1, h2, h3, h4⟩
    exact ⟨a', h1, h2, h4⟩

/-- C5 witness: the activation part instantiated on the two-user lobby and
the monotonicity part instantiated on a like call against the session. -/
theorem c5_likes_keys_witness :
    (∃ l, findLobby (exec (twoUserTrace.take 4)) "L0001" = some l
      ∧ (start_lobby (exec (twoUserTrace.take 4)) "L0001"
          "u1").2.active_lobbies
          = (exec (twoUserTrace.take 4)).active_lobbies
            ++ [mkActive l (exec (twoUserTrace.take 4)).clock]
      ∧ (∀ k, k ∈ likeKeys (mkActive l
            (exec (twoUserTrace.take 4)).clock).user_likes
          ↔ k ∈ l.users.map (fun m => m.user_id)))
    ∧ (∃ a', (step (exec twoUserTrace)
          (Op.addLike "L0001" "uX" 7)).active_lobbies[0]? = some a'
        ∧ a'.lobby_id = sessionDoc.lobby_id
        ∧ ∀ k ∈ likeKeys sessionDoc.user_likes,
            k ∈ likeKeys a'.user_likes) :=
  ⟨(c5_likes_keys (exec (twoUserTrace.take 4))).1 "L0001" "u1" (by decide),
   (c5_likes_keys (exec twoUserTrace)).2 (Op.addLike "L0001" "uX" 7) 0
     sessionDoc (by decide)⟩

/-- C6: `add_like` performs no membership check: on any reachable state, for
a session that resolves, a user id with no `user_likes` key and a positive
place id, the call succeeds (returns some match list) and the new state's
session carries a fresh entry `[place_id]` for that user id. -/
theorem c6_addLike_admits_nonmembers (ops : List Op) (lid uid : String)
    (pid : Int) (act : ActiveLobby)
    (ha : findActive (exec ops) lid = some act)
    (hk : uid ∉ likeKeys act.user_likes) (hp : 0 < pid) :
    (∃ r, (add_like (exec ops) lid uid pid).1 = Except.ok r)
    ∧ findActive (add_like (exec ops) lid uid pid).2 lid
        = some (pushDocLike uid pid act)
    ∧ lookupLikes (pushDocLike uid pid act).user_likes uid = some [pid] := by
  have hb := BInv_exec ops
  have hne : act.user_likes ≠ [] :=
    hb.activeLikesNe act (findActive_props ha).1
  rcases computeMatches_isSome hne with ⟨r, hr⟩
  have hple : ¬pid ≤ 0 := by omega
  rcases add_like_ok_spec uid hple ha hr with ⟨h1, h2⟩
  refine ⟨⟨r, h1⟩, ?_, ?_⟩
  · rw [h2]
    show (updateFirst (activeKey lid) (pushDocLike uid pid)
      (exec ops).active_lobbies).find? (activeKey lid)
      = some (pushDocLike uid pid act)
    rw [findActive_after_push]
    rw [show (exec ops).active_lobbies.find? (activeKey lid)
      = some act from ha]
    rfl
  · show lookupLikes (pushLike act.user_likes uid pid) uid = some [pid]
    exact lookupLikes_pushLike_new pid hk

/-- C6 witness: the unknown user `uX` likes place 7 in the two-user session;
the call succeeds and creates the entry `uX ↦ [7]`. -/
theorem c6_addLike_admits_nonmembers_witness :
    (∃ r, (add_like (exec twoUserTrace) "L0001" "uX" 7).1 = Except.ok r)
    ∧ findActive (add_like (exec twoUserTrace) "L0001" "uX" 7).2 "L0001"
        = some (pushDocLike "uX" 7 sessionDoc)
    ∧ lookupLikes (pushDocLike "uX" 7 sessionDoc).user_likes "uX"
        = some [7] :=
  c6_addLike_admits_nonmembers twoUserTrace "L0001" "uX" 7 sessionDoc
    (by decide) (by decide) (by decide)

/-- C7: `start_lobby` fails 404 when the lobby id does not resolve, 403 when
the requester is not the host, and on success appends a session which keeps
the member snapshot, has status `"active"`, records `started_at` from the
clock, and maps exactly the snapshotted member ids to empty like sequences. -/
theorem c7_start_session_contract :
    (∀ (s : AppState) (lid uid : String), findLobby s lid = none →
      (start_lobby s lid uid).1 = Except.error Err.notFound)
    ∧ (∀ (s : AppState) (lid uid : String) (u : UserRec) (l : Lobby),
        findUser s uid = some u → findLobby s lid = some l →
        l.host_id ≠ uid →
        (start_lobby s lid uid).1 = Except.error Err.forbidden)
    ∧ (∀ (s : AppState) (lid uid : String) (u : UserRec) (l : Lobby),
        findUser s uid = some u → findLobby s lid = some l →
        l.host_id = uid →
        (start_lobby s lid uid).1 = Except.ok ()
        ∧ (start_lobby s lid uid).2.active_lobbies
            = s.active_lobbies ++ [mkActive l s.clock]
        ∧ (mkActive l s.clock).users = l.users
        ∧ (mkActive l s.clock).status = "active"
        ∧ (mkActive l s.clock).started_at = s.clock
        ∧ (∀ k, k ∈ likeKeys (mkActive l s.clock).user_likes
            ↔ k ∈ l.users.map (fun m => m.user_id))
        ∧ (∀ m ∈ l.users,
            lookupLikes (mkActive l s.clock).user_likes m.user_id
              = some [])) := by
  refine ⟨?_, ?_, ?_⟩
  · intro s lid uid h
    exact start_lobby_not_found h
  · intro s lid uid u l hu hl hh
    exact start_lobby_forbidden hu hl hh
  · intro s lid uid u l hu hl hh
    rcases start_lobby_ok_spec hu hl hh with ⟨h1, h2⟩
    refine ⟨h1, by rw [h2], rfl, rfl, rfl, ?_, ?_⟩
    · intro k
      show k ∈ likeKeys (initLikes l.users) ↔ _
      exact likeKeys_initLikes l.users k
    · intro m hm
      show lookupLikes (initLikes l.users) m.user_id = some []
      exact lookupLikes_initLikes (List.mem_map.mpr ⟨m, hm, rfl⟩)

/-- C7 witness: the three conjuncts at concrete inputs — an unknown id, a
non-host requester, and the host starting the two-user lobby. -/
theorem c7_start_session_contract_witness :
    (start_lobby (exec (twoUserTrace.take 4)) "ZZZZ" "u1").1
      = Except.error Err.notFound
    ∧ (start_lobby (exec (twoUserTrace.take 4)) "L0001" "u2").1
      = Except.error Err.forbidden
    ∧ (start_lobby (exec (twoUserTrace.take 4)) "L0001" "u1").1
      = Except.ok () := by
  have h := c7_start_session_contract
  refine ⟨h.1 (exec (twoUserTrace.take 4)) "ZZZZ" "u1" (by decide),
    h.2.1 (exec (twoUserTrace.take 4)) "L0001" "u2"
      ⟨"u2", "Ben", some "L0001", false, 1⟩
      ⟨"L0001", "u1", [⟨"u1", "Ann", 2⟩, ⟨"u2", "Ben", 3⟩], 2, "open"⟩
      (by decide) (by decide) (by decide),
    (h.2.2 (exec (twoUserTrace.take 4)) "L0001" "u1"
      ⟨"u1", "Ann", some "L0001", true, 0⟩
      ⟨"L0001", "u1", [⟨"u1", "Ann", 2⟩, ⟨"u2", "Ben", 3⟩], 2, "open"⟩
      (by decide) (by decide) (by decide)).1⟩

/-- `create_lobby` for a user whose stored `current_lobby_id` is truthy
returns `AlreadyInLobby`. -/
theorem create_lobby_attached {s : AppState} {lid uid : String} {u : UserRec}
    (hu : findUser s uid = some u) (ht : truthy u.current_lobby_id = true) :
    (create_lobby s lid uid).1 = Except.error Err.alreadyInLobby := by
  unfold create_lobby
  rw [hu]
  dsimp only
  rw [if_pos ht]

/-- `join_lobby` for an attached user on a resolving lobby returns
`AlreadyInLobby` before the lobby's status is ever examined. -/
theorem join_lobby_attached {s : AppState} {lid uid : String} {u : UserRec}
    {l : Lobby} (hu : findUser s uid = some u) (hl : findLobby s lid = some l)
    (ht : truthy u.current_lobby_id = true) :
    (join_lobby s lid uid).1 = Except.error Err.alreadyInLobby := by
  unfold join_lobby
  rw [hu, hl]
  dsimp only
  rw [if_pos ht]

/-- `join_lobby` for a missing user returns 404 whatever the lobby. -/
theorem join_lobby_user_missing {s : AppState} {lid uid : String}
    (h : findUser s uid = none) :
    (join_lobby s lid uid).1 = Except.error Err.notFound := by
  unfold join_lobby
  rw [h]

/-- A successful `create_lobby` returns the lobby id and stores it as the
creator's `current_lobby_id` with `is_host`. -/
theorem create_lobby_ok_spec {s : AppState} {lid uid : String} {u : UserRec}
    (hu : findUser s uid = some u) (ht : truthy u.current_lobby_id = false)
    (hl : findLobby s lid = none) :
    (create_lobby s lid uid).1 = Except.ok lid
    ∧ findUser (create_lobby s lid uid).2 uid
        = some (setCurrentHost lid u) := by
  unfold create_lobby
  rw [hu]
  dsimp only
  rw [if_neg (by rw [ht]; simp), if_neg (by rw [hl]; simp)]
  refine ⟨rfl, ?_⟩
  show (updateFirst (userKey uid) (setCurrentHost lid) s.users).find?
    (userKey uid) = some (setCurrentHost lid u)
  rw [find?_update_userKey_self (g := setCurrentHost lid) (fun x => rfl)]
  rw [show s.users.find? (userKey uid) = some u from hu]
  rfl

/-- A successful `join_lobby` stores the joined lobby id as the user's
`current_lobby_id`. -/
theorem join_lobby_ok_spec {s : AppState} {lid uid : String} {u : UserRec}
    {l : Lobby} (hu : findUser s uid = some u)
    (hl : findLobby s lid = some l)
    (ht : truthy u.current_lobby_id = false) (hs : l.status = "open") :
    (join_lobby s lid uid).1 = Except.ok ()
    ∧ findUser (join_lobby s lid uid).2 uid = some (setCurrent lid u) := by
  unfold join_lobby
  rw [hu, hl]
  dsimp only
  rw [if_neg (by rw [ht]; simp), if_neg (by simp [hs])]
  refine ⟨rfl, ?_⟩
  show (updateFirst (userKey uid) (setCurrent lid) s.users).find?
    (userKey uid) = some (setCurrent lid u)
  rw [find?_update_userKey_self (g := setCurrent lid) (fun x => rfl)]
  rw [show s.users.find? (userKey uid) = some u from hu]
  rfl

/-- One user who created a lobby (and is therefore attached). -/
def c8Trace : List Op := [Op.createUser "u1" "Bob", Op.createLobby "L0001" "u1"]

/-- An attached user and an open-store lobby whose status is not `"open"`
(unreachable in normal operation; exercises the raw check order). -/
def weirdState2 : AppState :=
  ⟨[⟨"u9", "Zed", some "LX", false, 0⟩],
   [⟨"L9", "u9", [⟨"u9", "Zed", 0⟩], 0, "weird"⟩], [], 1⟩

/-- C8 counterexample: an attached user joining a non-existent lobby id gets
`NotFound`, not `AlreadyInLobby` — the existence check runs first, so the
claim's "fails with AlreadyInLobby whenever current_lobby_id is non-null" does
not hold unconditionally. -/
theorem c8_counterexample_attached_join_missing :
    truthyCurrent (exec c8Trace) "u1" = true
    ∧ (join_lobby (exec c8Trace) "ZZZZ" "u1").1 = Except.error Err.notFound
    ∧ Err.notFound ≠ Err.alreadyInLobby := by
  refine ⟨by decide, by decide, by decide⟩

/-- C8 (amended): along every trace whose generated lobby ids are nonempty
and fresh, every user id is a member of at most one lobby-or-session
document; `create_lobby` fails with `AlreadyInLobby` whenever the user exists
with a truthy `current_lobby_id`, and `join_lobby` does so whenever
additionally the lobby exists (a missing user or lobby yields `NotFound`
instead); and each success stores exactly the entered lobby id in the user's
`current_lobby_id`. -/
theorem c8_membership_exclusive :
    (∀ ops, okTrace initState ops = true →
      ∀ uid, memberDocs (exec ops) uid ≤ 1)
    ∧ (∀ (s : AppState) (lid uid : String) (u : UserRec),
        findUser s uid = some u → truthy u.current_lobby_id = true →
        (create_lobby s lid uid).1 = Except.error Err.alreadyInLobby)
    ∧ (∀ (s : AppState) (lid uid : String) (u : UserRec) (l : Lobby),
        findUser s uid = some u → findLobby s lid = some l →
        truthy u.current_lobby_id = true →
        (join_lobby s lid uid).1 = Except.error Err.alreadyInLobby)
    ∧ (∀ (s : AppState) (lid uid : String) (u : UserRec),
        findUser s uid = some u → truthy u.current_lobby_id = false →
        findLobby s lid = none →
        (create_lobby s lid uid).1 = Except.ok lid
        ∧ findUser (create_lobby s lid uid).2 uid
            = some (setCurrentHost lid u))
    ∧ (∀ (s : AppState) (lid uid : String) (u : UserRec) (l : Lobby),
        findUser s uid = some u → findLobby s lid = some l →
        truthy u.current_lobby_id = false → l.status = "open" →
        (join_lobby s lid uid).1 = Except.ok ()
        ∧ findUser (join_lobby s lid uid).2 uid
            = some (setCurrent lid u)) := by
  refine ⟨?_, ?_, ?_, ?_, ?_⟩
  · intro ops hok uid
    exact (XInv_exec hok).memberLe uid
  · intro s lid uid u hu ht
    exact create_lobby_attached hu ht
  · intro s lid uid u l hu hl ht
    exact join_lobby_attached hu hl ht
  · intro s lid uid u hu ht hl
    exact create_lobby_ok_spec hu ht hl
  · intro s lid uid u l hu hl ht hs
    exact join_lobby_ok_spec hu hl ht hs

/-- C8 witness: the five conjuncts at concrete inputs. -/
theorem c8_membership_exclusive_witness :
    memberDocs (exec twoUserTrace) "u2" ≤ 1
    ∧ (create_lobby (exec c8Trace) "L0002" "u1").1
        = Except.error Err.alreadyInLobby
    ∧ (join_lobby (exec c8Trace) "L0001" "u1").1
        = Except.error Err.alreadyInLobby
    ∧ findUser (create_lobby (exec [Op.createUser "u1" "Bob"]) "L0001"
        "u1").2 "u1" = some (setCurrentHost "L0001" ⟨"u1", "Bob", none,
          false, 0⟩)
    ∧ findUser (join_lobby (exec (twoUserTrace.take 3)) "L0001" "u2").2 "u2"
        = some (setCurrent "L0001" ⟨"u2", "Ben", none, false, 1⟩) := by
  have h := c8_membership_exclusive
  refine ⟨h.1 twoUserTrace (by decide) "u2",
    h.2.1 (exec c8Trace) "L0002" "u1" ⟨"u1", "Bob", some "L0001", true, 0⟩
      (by decide) (by decide),
    h.2.2.1 (exec c8Trace) "L0001" "u1" ⟨"u1", "Bob", some "L0001", true, 0⟩
      ⟨"L0001", "u1", [⟨"u1", "Bob", 1⟩], 1, "open"⟩
      (by decide) (by decide) (by decide),
    (h.2.2.2.1 (exec [Op.createUser "u1" "Bob"]) "L0001" "u1"
      ⟨"u1", "Bob", none, false, 0⟩ (by decide) (by decide) (by decide)).2,
    (h.2.2.2.2 (exec (twoUserTrace.take 3)) "L0001" "u2"
      ⟨"u2", "Ben", none, false, 1⟩
      ⟨"L0001", "u1", [⟨"u1", "Ann", 2⟩], 2, "open"⟩
      (by decide) (by decide) (by decide) (by decide)).2⟩

/-- The session of `c1Trace`: `u1` has liked place 5, `u2` nothing yet. -/
def c9Act : ActiveLobby :=
  ⟨"L0001", "u1", [⟨"u1", "Ann", 2⟩, ⟨"u2", "Ben", 3⟩], 2, "active", 4,
    [("u1", [5]), ("u2", [])]⟩

/-- C9: on every reachable state, every session's `user_likes` dict is
non-empty (the zero-member access `list(all_likes.keys())[0]` cannot be
reached), so the match computation is total; and whenever some member's like
sequence in the consulted document is empty, the returned match set is
empty. -/
theorem c9_match_computation_total (ops : List Op) :
    (∀ a ∈ (exec ops).active_lobbies, a.user_likes ≠ []
      ∧ ∃ r, computeMatches a.user_likes = some r)
    ∧ (∀ (lid uid k : String) (pid : Int) (act : ActiveLobby),
        0 < pid → findActive (exec ops) lid = some act →
        (k, ([] : List Int)) ∈ act.user_likes →
        (add_like (exec ops) lid uid pid).1 = Except.ok []) := by
  have hb := BInv_exec ops
  constructor
  · intro a ha
    have hne := hb.activeLikesNe a ha
    exact ⟨hne, computeMatches_isSome hne⟩
  · intro lid uid k pid act hp ha hk
    have hne := hb.activeLikesNe act (findActive_props ha).1
    rcases computeMatches_isSome hne with ⟨r, hr⟩
    have hr0 : r = [] := computeMatches_empty_like hk hr
    rw [(add_like_ok_spec uid (by omega) ha hr).1, hr0]

/-- C9 witness: the fresh two-user session has a nonempty likes dict, and a
like against a session where `u2` still has zero likes returns the empty
match set. -/
theorem c9_match_computation_total_witness :
    (sessionDoc.user_likes ≠ []
      ∧ ∃ r, computeMatches sessionDoc.user_likes = some r)
    ∧ (add_like (exec c1Trace) "L0001" "u2" 9).1 = Except.ok [] :=
  ⟨(c9_match_computation_total twoUserTrace).1 sessionDoc (by decide),
   (c9_match_computation_total c1Trace).2 "L0001" "u2" "u2" 9 c9Act
     (by decide) (by decide) (by decide)⟩

/-- C10: `join_lobby` checks in a fixed order — a missing user or a missing
lobby yields `NotFound` (even for a user attached elsewhere), and an attached
user on any resolving lobby yields `AlreadyInLobby` before the status is
examined, so `AlreadyInLobby` wins over `LobbyNotOpen` when both hold. -/
theorem c10_join_check_order :
    (∀ (s : AppState) (lid uid : String), findUser s uid = none →
      (join_lobby s lid uid).1 = Except.error Err.notFound)
    ∧ (∀ (s : AppState) (lid uid : String), findLobby s lid = none →
      (join_lobby s lid uid).1 = Except.error Err.notFound)
    ∧ (∀ (s : AppState) (lid uid : String) (u : UserRec) (l : Lobby),
        findUser s uid = some u → findLobby s lid = some l →
        truthy u.current_lobby_id = true →
        (join_lobby s lid uid).1 = Except.error Err.alreadyInLobby) := by
  refine ⟨?_, ?_, ?_⟩
  · intro s lid uid h
    exact join_lobby_user_missing h
  · intro s lid uid h
    exact join_lobby_not_found h
  · intro s lid uid u l hu hl ht
    exact join_lobby_attached hu hl ht

/-- C10 witness: a missing user, an attached user on a missing lobby, and an
attached user on a non-open lobby (which yields `AlreadyInLobby`, not
`LobbyNotOpen`). -/
theorem c10_join_check_order_witness :
    (join_lobby (exec twoUserTrace) "L0001" "uQ").1
      = Except.error Err.notFound
    ∧ (join_lobby (exec c8Trace) "YYYY" "u1").1
      = Except.error Err.notFound
    ∧ (join_lobby weirdState2 "L9" "u9").1
      = Except.error Err.alreadyInLobby := by
  have h := c10_join_check_order
  refine ⟨h.1 (exec twoUserTrace) "L0001" "uQ" (by decide),
    h.2.1 (exec c8Trace) "YYYY" "u1" (by decide),
    h.2.2 weirdState2 "L9" "u9" ⟨"u9", "Zed", some "LX", false, 0⟩
      ⟨"L9", "u9", [⟨"u9", "Zed", 0⟩], 0, "weird"⟩
      (by decide) (by decide) (by decide)⟩

/-- C3 witness: the amended statement instantiated on the two-user scenario
(after the start, `L0001` resolves only via the active store, persists under a
further harmless call, and is absent from the open listing). -/
theorem c3_unique_resolution_witness :
    ¬("L0001" ∈ openIds (exec twoUserTrace)
        ∧ "L0001" ∈ activeIds (exec twoUserTrace))
    ∧ ("L0001" ∈ openIds (exec (twoUserTrace ++ [Op.createUser "u3" "Cal"]))
        ∨ "L0001" ∈ activeIds (exec (twoUserTrace
            ++ [Op.createUser "u3" "Cal"])))
    ∧ "L0001" ∉ (get_open_lobbies (exec twoUserTrace)).map
        (fun r => r.lobby_id) := by
  have h := c3_unique_resolution twoUserTrace (by decide)
  exact ⟨h.1 "L0001",
    h.2.1 "L0001" [Op.createUser "u3" "Cal"] (by right; decide),
    h.2.2.2 "L0001" (by decide)⟩

end DayOut
